import Mathlib

/-!
Verification of the viteprecop project transformation pipeline.

This file gives a shallow embedding, in Lean 4, of the decision logic of the
repository: the manifest merge (updatePackageJson in the react-ssg generator,
and the dependency blocks of applyReactSsgWiring and applyPreactPrerender),
the balanced-delimiter config rewrite (the viteSSG removal scan in
react-ssg-wiring.mjs), the route analyzer (analyzeProject), the strategy
dispatch of run (src/cli/src/index.mjs), the routes.jsx emission, and the
control-flow and cleanup skeleton of apply-zip.mjs.  Theorems about these
definitions settle the specification claims.

Conventions of the embedding:
* JavaScript objects used as string maps become association lists
  (List (String x String)); key update keeps the position of an existing key
  and appends an absent key, exactly as JS property assignment does.
* The JS truthiness test used by the source on version strings
  (for example the negation of pkg.dependencies[dep]) is absentish below:
  a key is treated as missing when it is absent or maps to the empty string.
* Strings are modelled through their character lists; ASCII content only is
  exercised, where Lean character comparison agrees with the UTF-16
  comparison of JavaScript.
-/

/-- The single-quote character, written by code point to keep literals plain. -/
def sqc : Char := Char.ofNat 39

/-- Opening curly brace, written by code point. -/
def lbrace : Char := Char.ofNat 123

/-- Closing curly brace, written by code point. -/
def rbrace : Char := Char.ofNat 125

/-! ## Association lists: the JS-object string maps of a manifest -/

/-- Lookup of a key in a JS object modelled as an association list. -/
def lookupKey (m : List (String × String)) (k : String) : Option String :=
  match m with
  | [] => none
  | (k', v) :: rest => if k' = k then some v else lookupKey rest k

/-- JS property assignment: replace the value in place when the key exists,
append the pair otherwise. -/
def setKey (m : List (String × String)) (k v : String) : List (String × String) :=
  match m with
  | [] => [(k, v)]
  | (k', v') :: rest => if k' = k then (k, v) :: rest else (k', v') :: setKey rest k v

/-- The JS truthiness test the merge code applies to a stored version string:
the key counts as missing when absent or bound to the empty string. -/
def absentish (m : List (String × String)) (k : String) : Bool :=
  match lookupKey m k with
  | none => true
  | some v => v = ""

/-! ## ManifestMerger: updatePackageJson (react-ssg generator) -/

/-- One step of the dependency-adding loop of updatePackageJson: an entry is
written to the target mapping only when its key is falsy in both the target
and the other mapping; writing raises the updated flag. -/
def amStep (other : List (String × String)) (t : List (String × String) × Bool)
    (kv : String × String) : List (String × String) × Bool :=
  if absentish t.1 kv.1 && absentish other kv.1 then (setKey t.1 kv.1 kv.2, true) else t

/-- The dependency-adding loop of updatePackageJson over one entry list. -/
def addMissingList (other : List (String × String)) (init : List (String × String) × Bool)
    (entries : List (String × String)) : List (String × String) × Bool :=
  entries.foldl (amStep other) init

/-- The two loops of the merge: required entries into dependencies judged
against devDependencies, then devRequired entries into devDependencies judged
against the already-updated dependencies.  Returns both mappings and the
updated flag. -/
def mergeDependencies (required devRequired : List (String × String))
    (deps devDeps : List (String × String)) :
    List (String × String) × List (String × String) × Bool :=
  let r1 := addMissingList devDeps (deps, false) required
  let r2 := addMissingList r1.1 (devDeps, r1.2) devRequired
  (r1.1, r2.1, r2.2)

/-- SEO_DEPENDENCIES of the react-ssg generator. -/
def SEO_DEPENDENCIES : List (String × String) :=
  [("react-helmet-async", "^2.0.0"),
   ("vite-plugin-html", "^3.2.1"),
   ("vite-plugin-sitemap", "^0.7.1"),
   ("vite-ssg", "^0.24.0")]

/-- SEO_DEV_DEPENDENCIES of the react-ssg generator. -/
def SEO_DEV_DEPENDENCIES : List (String × String) :=
  [("vite-bundle-visualizer", "^1.2.1"),
   ("@vitejs/plugin-react", "^4.2.1"),
   ("vite", "^5.0.0")]

/-- A parsed package.json.  The three mappings are the JS objects
(a missing object is identified with the empty mapping, matching the
normalisation pkg.dependencies = pkg.dependencies or else the empty object
performed by the source before any merge); the type field keeps its
possible absence. -/
@[ext]
structure Pkg where
  dependencies : List (String × String)
  devDependencies : List (String × String)
  scripts : List (String × String)
  type : Option String
  deriving DecidableEq, Repr

/-- updatePackageJson of the react-ssg generator: merge SEO_DEPENDENCIES and
SEO_DEV_DEPENDENCIES, then add the analyze script when falsy.  The Bool is
the updated flag that decides the write-back of package.json. -/
def updatePackageJson (pkg : Pkg) : Pkg × Bool :=
  let r := mergeDependencies SEO_DEPENDENCIES SEO_DEV_DEPENDENCIES
    pkg.dependencies pkg.devDependencies
  let s :=
    if absentish pkg.scripts "analyze" then
      (setKey pkg.scripts "analyze" "npx vite-bundle-visualizer", true)
    else (pkg.scripts, r.2.2)
  ({ pkg with dependencies := r.1, devDependencies := r.2.1, scripts := s.1 }, s.2)

/-! ## StrategyDispatcher: run (src/cli/src/index.mjs) -/

/-- The two generation strategies. -/
inductive Strategy where
  | react
  | preact
  deriving DecidableEq, Repr

/-- The generator steps run can invoke. -/
inductive GenStep where
  | seoBootstrap
  | ssgWiring
  | preactPrerender
  deriving DecidableEq, Repr

/-- The strategy each generator step belongs to. -/
def stepStrategy : GenStep → Strategy
  | .seoBootstrap => .react
  | .ssgWiring => .react
  | .preactPrerender => .preact

/-- The react branch of run: applyReactSsgSeo then applyReactSsgWiring. -/
def reactSteps : List GenStep := [.seoBootstrap, .ssgWiring]

/-- The preact branch of run: applyPreactPrerender. -/
def preactSteps : List GenStep := [.preactPrerender]

/-- The strategy dispatch of run: the single comparison against the literal
string preact; every other value takes the react branch. -/
def runSteps (strategy : String) : List GenStep :=
  if strategy = "preact" then preactSteps else reactSteps

/-- run, reduced to the parts relevant to strategy handling: it throws only
when package.json cannot be read, and otherwise returns the ordered step list
selected by the dispatch. -/
def runDispatch (pkgReadable : Bool) (strategy : String) : Except String (List GenStep) :=
  if pkgReadable then .ok (runSteps strategy)
  else .error "Could not read package.json"

/-! ## ArchiveRoundTrip: control-flow skeleton of apply-zip.mjs main -/

/-- The exit conditions of a zip transformation run. -/
inductive ZipExit where
  | extractFail
  | missingManifest
  | cliFail
  | packFail
  | success
  deriving DecidableEq, Repr

/-- The outcome of each fallible stage of one apply-zip run. -/
structure ZipWorld where
  extractOk : Bool
  manifestPresent : Bool
  cliOk : Bool
  packOk : Bool
  deriving DecidableEq, Repr

/-- The control flow of main in apply-zip.mjs, paired with the number of
removals of the temporary WorkingDirectory performed on that path.
Tracing the source: extraction failure removes tempDir then exits; a missing
package.json removes tempDir then exits; a failing internal CLI invocation
exits with no removal; a failure while writing the output zip exits with no
removal; the success path removes tempDir once after packing.  The patch and
optional install/build stages catch their own errors and never exit. -/
def applyZipMain (w : ZipWorld) : ZipExit × Nat :=
  if !w.extractOk then (.extractFail, 1)
  else if !w.manifestPresent then (.missingManifest, 1)
  else if !w.cliOk then (.cliFail, 0)
  else if !w.packOk then (.packFail, 0)
  else (.success, 1)

/-! ## ConfigRewriter: the balanced-delimiter removal scan

The viteSSG removal block of applyReactSsgWiring: locate the first occurrence
of the callee token followed by an opening parenthesis, scan forward with a
depth counter, cut the span, consume the trailing comma/whitespace run, and
finally collapse every comma that directly precedes a closing square bracket.
-/

/-- Index of the first occurrence of pat in l (String.indexOf of JS). -/
def firstIdx (pat : List Char) : List Char → Option Nat
  | [] => if pat = [] then some 0 else none
  | c :: rest =>
    if pat.isPrefixOf (c :: rest) then some 0
    else (firstIdx pat rest).map (· + 1)

/-- Whether pat occurs in l (String.includes of JS). -/
def substrOf (pat l : List Char) : Bool :=
  (firstIdx pat l).isSome

/-- JS String.replace with a plain-string pattern: replace only the first
occurrence. -/
def replaceFirst (pat repl l : List Char) : List Char :=
  match firstIdx pat l with
  | none => l
  | some i => l.take i ++ repl ++ l.drop (i + pat.length)

/-- The depth-counting scan of the removal block: starting at the callee
token with depth d, an opening parenthesis increments, a closing one
decrements and, exactly when the depth reaches zero, the scan ends returning
the text after the matching parenthesis.  Running off the end is the
end-not-found case of the source (end stays -1). -/
def scanCall (d : Int) : List Char → Option (List Char)
  | [] => none
  | c :: rest =>
    if c = '(' then scanCall (d + 1) rest
    else if c = ')' then
      if d - 1 = 0 then some rest else scanCall (d - 1) rest
    else scanCall d rest

/-- The JS whitespace class, restricted to its ASCII members: the source
texts exercised here are ASCII. -/
def isJsWs (c : Char) : Bool :=
  c = ' ' || c = '\t' || c = '\n' || c = '\r' ||
    c = Char.ofNat 11 || c = Char.ofNat 12

/-- The characters the trailing-run consumption of the removal block accepts:
a comma or whitespace. -/
def isCommaWs (c : Char) : Bool :=
  c = ',' || isJsWs c

/-- The step function of the global dangling-comma rewrite, with explicit
fuel so that the recursion is structural (the fuel never runs out when
seeded with the text length, since every step consumes at least one
character).  At a comma the rewrite looks past any whitespace: a closing
square bracket swallows the comma and the whitespace and the scan resumes
after the bracket (the JS global regex does not rescan its replacement);
anything else keeps the comma and moves one character on. -/
def collapseCBFuel : Nat → List Char → List Char
  | _, [] => []
  | 0, l => l
  | fuel + 1, c :: rest =>
    if c = ',' then
      match rest.dropWhile isJsWs with
      | [] => c :: collapseCBFuel fuel rest
      | d :: tail =>
        if d = ']' then ']' :: collapseCBFuel fuel tail
        else c :: collapseCBFuel fuel rest
    else c :: collapseCBFuel fuel rest

/-- The final global rewrite of the removal block: every comma followed by
optional whitespace and a closing square bracket collapses to the bracket
(the JS global regex replace, restarting after each replacement). -/
def collapseCommaBracket (l : List Char) : List Char :=
  collapseCBFuel l.length l

/-- The full removal step: find the first occurrence of the callee token
directly followed by an opening parenthesis, scan to the matching closing
parenthesis, cut the span together with the trailing comma/whitespace run,
and apply the global dangling-comma collapse (which the source applies even
when no call was found or the scan failed). -/
def removeInvocation (callee text : List Char) : List Char :=
  match firstIdx (callee ++ ['(']) text with
  | none => collapseCommaBracket text
  | some i =>
    match scanCall 0 (text.drop i) with
    | none => collapseCommaBracket text
    | some rest => collapseCommaBracket (text.take i ++ rest.dropWhile isCommaWs)

/-! ## applyReactSsgWiring: the package.json step (lines 20-65) -/

/-- The pattern vite of the script rewrite. -/
def viteTok : List Char := "vite".data

/-- The replacement vite-react-ssg of the script rewrite. -/
def vrsgTok : List Char := "vite-react-ssg".data

/-- The vite-to-vite-react-ssg substitution of a script value. -/
def scriptViteRewrite (v : String) : String :=
  String.mk (replaceFirst viteTok vrsgTok v.data)

/-- Wiring step: add react-router-dom to dependencies when falsy in both
mappings (react-ssg-wiring.mjs lines 29-32). -/
def wStage1 (s : Pkg × Bool) : Pkg × Bool :=
  if absentish s.1.dependencies "react-router-dom" &&
      absentish s.1.devDependencies "react-router-dom" then
    ({ s.1 with dependencies := setKey s.1.dependencies "react-router-dom" "^6.19.0" }, true)
  else s

/-- Wiring step: add vite-react-ssg to devDependencies when falsy in both
mappings (lines 34-37). -/
def wStage2 (s : Pkg × Bool) : Pkg × Bool :=
  if absentish s.1.devDependencies "vite-react-ssg" &&
      absentish s.1.dependencies "vite-react-ssg" then
    ({ s.1 with devDependencies := setKey s.1.devDependencies "vite-react-ssg" "^0.8.9" }, true)
  else s

/-- Wiring step: rewrite the build script from vite to vite-react-ssg when
it is truthy, mentions vite and does not already mention vite-react-ssg
(lines 39-43). -/
def wStage3 (s : Pkg × Bool) : Pkg × Bool :=
  match lookupKey s.1.scripts "build" with
  | some bs =>
    if !(bs = "") && substrOf viteTok bs.data && !substrOf vrsgTok bs.data then
      ({ s.1 with scripts := setKey s.1.scripts "build" (scriptViteRewrite bs) }, true)
    else s
  | none => s

/-- Wiring step: rewrite the dev script likewise (lines 45-49). -/
def wStage4 (s : Pkg × Bool) : Pkg × Bool :=
  match lookupKey s.1.scripts "dev" with
  | some ds =>
    if !(ds = "") && substrOf viteTok ds.data && !substrOf vrsgTok ds.data then
      ({ s.1 with scripts := setKey s.1.scripts "dev" (scriptViteRewrite ds) }, true)
    else s
  | none => s

/-- Wiring step: default a falsy dev script (lines 51-54). -/
def wStage5 (s : Pkg × Bool) : Pkg × Bool :=
  if absentish s.1.scripts "dev" then
    ({ s.1 with scripts := setKey s.1.scripts "dev" "vite-react-ssg dev" }, true)
  else s

/-- Wiring step: force the module type marker (lines 57-60). -/
def wStage6 (s : Pkg × Bool) : Pkg × Bool :=
  if s.1.type ≠ some "module" then ({ s.1 with type := some "module" }, true) else s

/-- The package.json mutation block of applyReactSsgWiring
(react-ssg-wiring.mjs lines 23-60), as the sequential composition of its six
guarded updates starting from an unraised updatedPkg flag.  The Bool is the
updatedPkg flag deciding the package.json write-back. -/
def wiringUpdatePkg (pkg : Pkg) : Pkg × Bool :=
  wStage6 (wStage5 (wStage4 (wStage3 (wStage2 (wStage1 (pkg, false))))))

theorem wStage1_devDependencies (s : Pkg × Bool) :
    (wStage1 s).1.devDependencies = s.1.devDependencies := by
  unfold wStage1
  split <;> rfl

theorem wStage1_scripts (s : Pkg × Bool) : (wStage1 s).1.scripts = s.1.scripts := by
  unfold wStage1
  split <;> rfl

theorem wStage1_type (s : Pkg × Bool) : (wStage1 s).1.type = s.1.type := by
  unfold wStage1
  split <;> rfl

theorem wStage2_dependencies (s : Pkg × Bool) :
    (wStage2 s).1.dependencies = s.1.dependencies := by
  unfold wStage2
  split <;> rfl

theorem wStage2_scripts (s : Pkg × Bool) : (wStage2 s).1.scripts = s.1.scripts := by
  unfold wStage2
  split <;> rfl

theorem wStage2_type (s : Pkg × Bool) : (wStage2 s).1.type = s.1.type := by
  unfold wStage2
  split <;> rfl

theorem wStage3_dependencies (s : Pkg × Bool) :
    (wStage3 s).1.dependencies = s.1.dependencies := by
  unfold wStage3
  split
  · split <;> rfl
  · rfl

theorem wStage3_devDependencies (s : Pkg × Bool) :
    (wStage3 s).1.devDependencies = s.1.devDependencies := by
  unfold wStage3
  split
  · split <;> rfl
  · rfl

theorem wStage3_type (s : Pkg × Bool) : (wStage3 s).1.type = s.1.type := by
  unfold wStage3
  split
  · split <;> rfl
  · rfl

theorem wStage4_dependencies (s : Pkg × Bool) :
    (wStage4 s).1.dependencies = s.1.dependencies := by
  unfold wStage4
  split
  · split <;> rfl
  · rfl

theorem wStage4_devDependencies (s : Pkg × Bool) :
    (wStage4 s).1.devDependencies = s.1.devDependencies := by
  unfold wStage4
  split
  · split <;> rfl
  · rfl

theorem wStage4_type (s : Pkg × Bool) : (wStage4 s).1.type = s.1.type := by
  unfold wStage4
  split
  · split <;> rfl
  · rfl

theorem wStage5_dependencies (s : Pkg × Bool) :
    (wStage5 s).1.dependencies = s.1.dependencies := by
  unfold wStage5
  split <;> rfl

theorem wStage5_devDependencies (s : Pkg × Bool) :
    (wStage5 s).1.devDependencies = s.1.devDependencies := by
  unfold wStage5
  split <;> rfl

theorem wStage5_type (s : Pkg × Bool) : (wStage5 s).1.type = s.1.type := by
  unfold wStage5
  split <;> rfl

theorem wStage6_dependencies (s : Pkg × Bool) :
    (wStage6 s).1.dependencies = s.1.dependencies := by
  unfold wStage6
  split <;> rfl

theorem wStage6_devDependencies (s : Pkg × Bool) :
    (wStage6 s).1.devDependencies = s.1.devDependencies := by
  unfold wStage6
  split <;> rfl

theorem wStage6_scripts (s : Pkg × Bool) : (wStage6 s).1.scripts = s.1.scripts := by
  unfold wStage6
  split <;> rfl

/-! ## ProjectAnalyzer: analyzeProject -/

/-- The file-system view analyzeProject consumes: the readdir results of the
two conventional pages directories (none when the directory is missing), the
contents of the six conventional entry files in the order the source scans
them (none when the file is missing), and the existence of src/components. -/
structure Project where
  hasComponentsDir : Bool
  pagesFiles : Option (List String)
  viewsFiles : Option (List String)
  appTsx : Option String
  appJsx : Option String
  mainTsx : Option String
  mainJsx : Option String
  routesTsx : Option String
  routesJsx : Option String
  deriving DecidableEq, Repr

/-- The component-file test of the directory scan: the regex accepting a
final .js, .jsx, .ts or .tsx extension. -/
def isComponentFile (f : List Char) : Bool :=
  List.isSuffixOf ".jsx".data f || List.isSuffixOf ".js".data f ||
    List.isSuffixOf ".tsx".data f || List.isSuffixOf ".ts".data f

/-- path.parse(file).name of Node: the basename with its final extension
removed, where a dot in first position does not start an extension. -/
def stemOf (f : List Char) : List Char :=
  match (f.reverse.dropWhile (fun c => !(c = '.'))) with
  | [] => f
  | _ :: restRev => if restRev.isEmpty then f else restRev.reverse

/-- The route derived from a page file name: stems index and home map to the
root route, any other stem is lowercased and prefixed with a slash. -/
def routeOfPageFile (f : List Char) : List Char :=
  let s := (stemOf f).map Char.toLower
  if s = "index".data || s = "home".data then "/".data else '/' :: s

/-- The contribution of one pages directory listing: every entry accepted by
the component-file regex yields its derived route. -/
def pagesRoutesOf (listing : Option (List String)) : List (List Char) :=
  match listing with
  | none => []
  | some files =>
    files.filterMap (fun file =>
      if isComponentFile file.data then some (routeOfPageFile file.data) else none)

/-- Quote characters accepted by the path attribute regex. -/
def isQuote (c : Char) : Bool := c = '"' || c = sqc

/-- One attempted regex match at the current position.  The pattern is
path= followed by a quote, an optional slash, one or more non-quote
characters (the capture) and a closing quote; greedy matching with
backtracking means the optional slash is consumed exactly when at least one
further non-quote character follows it.  Returns the capture and the text
after the match. -/
def tryPathMatch : List Char → Option (List Char × List Char)
  | 'p' :: 'a' :: 't' :: 'h' :: '=' :: c :: rest =>
    if isQuote c then
      let run := rest.takeWhile (fun d => !isQuote d)
      match rest.dropWhile (fun d => !isQuote d) with
      | [] => none
      | _ :: tail =>
        if run.isEmpty then none
        else
          let cap :=
            if run.head? = some '/' && !run.tail.isEmpty then run.tail else run
          some (cap, tail)
    else none
  | _ => none

/-- The remainder returned by a successful match attempt is shorter than the
input. -/
theorem tryPathMatch_length {l cap rem : List Char}
    (h : tryPathMatch l = some (cap, rem)) : rem.length < l.length := by
  unfold tryPathMatch at h
  split at h
  next c rest =>
    split at h
    · split at h
      next => exact absurd h (by simp)
      next d tail hd =>
        have h2 : rem = tail := by
          by_cases he : (List.takeWhile (fun d => !isQuote d) rest).isEmpty <;>
            simp only [he, if_true, if_false] at h <;> simp at h
          exact h.2.symm
        have h1 : (rest.dropWhile (fun d => !isQuote d)).length ≤ rest.length :=
          (List.dropWhile_sublist _).length_le
        rw [hd] at h1
        subst h2
        simp at h1 ⊢
        omega
    · exact absurd h (by simp)
  next => exact absurd h (by simp)

/-- The scanning loop of the global path= regex, with explicit fuel so that
the recursion is structural: at each position either a match is consumed
whole (search resumes after it, which consumes at least one character by
tryPathMatch_length) or the scan advances one character; seeding the fuel
with the text length therefore never exhausts it. -/
def scanPathsFuel : Nat → List Char → List (List Char)
  | _, [] => []
  | 0, _ => []
  | fuel + 1, c :: rest =>
    match tryPathMatch (c :: rest) with
    | some (cap, rem) => cap :: scanPathsFuel fuel rem
    | none => scanPathsFuel fuel rest

/-- The global exec loop of the path attribute regex over one file. -/
def scanPaths (l : List Char) : List (List Char) :=
  scanPathsFuel l.length l

/-- The guarded route insertion of the textual scan: a captured value joins
the set unless it mentions a wildcard or a parameter marker; one leading
slash is stripped before the slash prefix is prepended. -/
def routeOfCapture (cap : List Char) : List Char :=
  '/' :: (if cap.head? = some '/' then cap.tail else cap)

/-- The routes contributed by one entry file content: every capture of the
path attribute regex that carries no wildcard and no parameter marker. -/
def entryRoutesOfContent (content : List Char) : List (List Char) :=
  (scanPaths content).filterMap (fun cap =>
    if cap.contains '*' || cap.contains ':' then none else some (routeOfCapture cap))

/-- The entry files analyzeProject scans, in source order (src/App.tsx,
src/App.jsx, src/main.tsx, src/main.jsx, src/routes.tsx, src/routes.jsx);
missing files drop out. -/
def entryContents (p : Project) : List String :=
  [p.appTsx, p.appJsx, p.mainTsx, p.mainJsx, p.routesTsx, p.routesJsx].filterMap id

/-- All route candidates of one analysis, in insertion order: the seed root
route, the directory-scan routes of src/pages and src/views, then the
textual-scan routes of the entry files. -/
def collectRoutes (p : Project) : List String :=
  (['/'] :: (pagesRoutesOf p.pagesFiles ++ pagesRoutesOf p.viewsFiles ++
    ((entryContents p).map (fun c => entryRoutesOfContent c.data)).flatten)).map
    (fun l => String.mk l)

/-- The default comparison of Array.sort: lexicographic order on the code
units of the two strings (code points coincide with UTF-16 code units on the
ASCII routes produced here). -/
def jsLeB : List Char → List Char → Bool
  | [], _ => true
  | _ :: _, [] => false
  | a :: as, b :: bs => if a = b then jsLeB as bs else decide (a < b)

/-- jsLeB as a relation on strings. -/
def jsLe (a b : String) : Prop := jsLeB a.data b.data = true

instance : DecidableRel jsLe := fun a b => by
  unfold jsLe
  infer_instance

/-- analyzeProject: the deduplicated, lexicographically sorted route
sequence (the JS Set removes duplicates and Array.sort orders the strings)
together with the hasComponents flag. -/
def analyzeProject (p : Project) : List String × Bool :=
  ((collectRoutes p).dedup.insertionSort jsLe, p.hasComponentsDir)

/-- The detected RouteSet of one analysis. -/
def analyzeRoutes (p : Project) : List String :=
  (analyzeProject p).1

/-! ## TemplateEmitter: the routes.jsx emission of applyReactSsgWiring -/

/-- One entry of the generated routes array, from the template
literal of applyReactSsgWiring: the route path between single quotes and the
root App component as element. -/
def routesJsxEntry (r : String) : List Char :=
  "  ".data ++ [lbrace] ++ "\n    path: ".data ++ [sqc] ++ r.data ++ [sqc] ++
    ",\n    element: <App />,\n  ".data ++ [rbrace] ++ ",".data

/-- The routes array body written into src/routes.jsx: one entry per element
of the detectedRoutes argument, joined by newlines.  The declared default of
the parameter, the single root route, is the value used when the caller
passes no routes. -/
def routesArrayContent (detectedRoutes : List String := ["/"]) : List Char :=
  List.intercalate "\n".data (detectedRoutes.map routesJsxEntry)

/-- The route paths bound in the emitted routes.jsx, entry by entry. -/
def wiringRoutesPaths (detectedRoutes : List String := ["/"]) : List String :=
  detectedRoutes

/-- The react branch of run invokes applyReactSsgWiring with projectRoot,
pkg and domain only (src/cli/src/index.mjs line 82): no routes argument is
passed, so the wiring falls back to the declared default and the emitted
routes.jsx binds exactly the root route, whatever the analysis of the
project would detect. -/
def runReactRoutesPaths (_p : Project) : List String :=
  wiringRoutesPaths

/-- The entry texts of routes.jsx as emitted by the react branch of run. -/
def runReactRoutesEntries (_p : Project) : List (List Char) :=
  (wiringRoutesPaths).map routesJsxEntry

/-! ## Toolbox lemmas -/

theorem jsLeB_nil (b : List Char) : jsLeB [] b = true := by
  unfold jsLeB
  rfl

theorem jsLeB_total (a b : List Char) : jsLeB a b = true ∨ jsLeB b a = true := by
  induction a generalizing b with
  | nil => exact Or.inl (jsLeB_nil b)
  | cons x xs ih =>
    cases b with
    | nil => exact Or.inr (jsLeB_nil _)
    | cons y ys =>
      by_cases hxy : x = y
      · subst hxy
        rcases ih ys with h | h
        · exact Or.inl (by simp [jsLeB, h])
        · exact Or.inr (by simp [jsLeB, h])
      · rcases lt_or_gt_of_ne hxy with h | h
        · exact Or.inl (by simp [jsLeB, hxy, h])
        · exact Or.inr (by
            have : ¬(y = x) := fun hyx => hxy hyx.symm
            simp [jsLeB, this, h])

theorem jsLeB_trans {a b c : List Char}
    (h1 : jsLeB a b = true) (h2 : jsLeB b c = true) : jsLeB a c = true := by
  induction a generalizing b c with
  | nil => exact jsLeB_nil c
  | cons x xs ih =>
    cases b with
    | nil => simp [jsLeB] at h1
    | cons y ys =>
      cases c with
      | nil => simp [jsLeB] at h2
      | cons z zs =>
        simp only [jsLeB] at h1 h2 ⊢
        by_cases hxy : x = y
        · subst hxy
          rw [if_pos rfl] at h1
          by_cases hyz : x = z
          · subst hyz
            rw [if_pos rfl] at h2 ⊢
            exact ih h1 h2
          · rw [if_neg hyz] at h2 ⊢
            exact h2
        · rw [if_neg hxy] at h1
          have hxy' : x < y := of_decide_eq_true h1
          by_cases hyz : y = z
          · subst hyz
            rw [if_neg hxy]
            exact decide_eq_true hxy'
          · rw [if_neg hyz] at h2
            have hyz' : y < z := of_decide_eq_true h2
            have hxz : x < z := lt_trans hxy' hyz'
            rw [if_neg (fun he : x = z => absurd (he ▸ hxz) (lt_irrefl z))]
            exact decide_eq_true hxz

instance : IsTotal String jsLe :=
  ⟨fun a b => jsLeB_total a.data b.data⟩

instance : IsTrans String jsLe :=
  ⟨fun _ _ _ h1 h2 => jsLeB_trans h1 h2⟩

theorem lookupKey_setKey_self (m : List (String × String)) (k v : String) :
    lookupKey (setKey m k v) k = some v := by
  induction m with
  | nil => simp [setKey, lookupKey]
  | cons kv rest ih =>
    obtain ⟨k', v'⟩ := kv
    by_cases h : k' = k <;> simp [setKey, lookupKey, h, ih]

theorem lookupKey_setKey_ne (m : List (String × String)) {k j : String} (v : String)
    (h : j ≠ k) : lookupKey (setKey m k v) j = lookupKey m j := by
  induction m with
  | nil =>
    simp only [setKey, lookupKey]
    rw [if_neg (fun he : k = j => h he.symm)]
  | cons kv rest ih =>
    obtain ⟨k', v'⟩ := kv
    by_cases hk : k' = k
    · subst hk
      simp only [setKey, if_pos rfl, lookupKey]
      rw [if_neg (fun he : k' = j => h he.symm), if_neg (fun he : k' = j => h he.symm)]
    · simp only [setKey, if_neg hk, lookupKey]
      by_cases hj : k' = j <;> simp [hj, ih]

theorem setKey_of_lookup {m : List (String × String)} {k v : String}
    (h : lookupKey m k = some v) : setKey m k v = m := by
  induction m with
  | nil => simp [lookupKey] at h
  | cons kv rest ih =>
    obtain ⟨k', v'⟩ := kv
    by_cases hk : k' = k
    · subst hk
      have h' : v' = v := by simpa [lookupKey] using h
      subst h'
      simp [setKey]
    · simp only [lookupKey, if_neg hk] at h
      simp [setKey, hk, ih h]

/-! ## Claim C9 -/

/-- Claim C9: for every strategy input other than the exact string preact,
run applies the react strategy (SEO bootstrap then SSG wiring) and raises no
error on account of the strategy value; only the exact value preact selects
the preact strategy; and the steps of one run never mix strategies. -/
theorem claimC9_strategy_dispatch :
    (∀ s : String, s ≠ "preact" →
      runDispatch true s = .ok reactSteps ∧
      ∀ st ∈ runSteps s, stepStrategy st = .react) ∧
    runDispatch true "preact" = .ok preactSteps ∧
    (∀ s : String, s = "preact" ↔ runSteps s = preactSteps) ∧
    (∀ s : String, ∀ st ∈ runSteps s, ∀ st' ∈ runSteps s,
      stepStrategy st = stepStrategy st') := by
  refine ⟨fun s hs => ⟨?_, ?_⟩, rfl,
    fun s => ⟨fun h => by rw [runSteps, if_pos h], fun h => ?_⟩, fun s => ?_⟩
  · simp [runDispatch, runSteps, hs]
  · simp only [runSteps, if_neg hs, reactSteps]
    intro st hst
    fin_cases hst <;> rfl
  · by_cases hs : s = "preact"
    · exact hs
    · rw [runSteps, if_neg hs] at h
      exact absurd h (by decide)
  · by_cases hs : s = "preact"
    · simp only [runSteps, if_pos hs, preactSteps]
      intro st hst st' hst'
      fin_cases hst <;> fin_cases hst' <;> rfl
    · simp only [runSteps, if_neg hs, reactSteps]
      intro st hst st' hst'
      fin_cases hst <;> fin_cases hst' <;> rfl

/-- Witness for claim C9 at the concrete non-preact input vue: the react
strategy is applied without error. -/
theorem claimC9_witness :
    ("vue" : String) ≠ "preact" ∧ runDispatch true "vue" = .ok reactSteps :=
  ⟨by decide, (claimC9_strategy_dispatch.1 "vue" (by decide)).1⟩

/-! ## Claim C10 -/

/-- Claim C10: after the package.json step of the react SSG wiring the
module-type field equals module regardless of its prior value, and a prior
value other than module by itself makes the run flag the manifest as
updated (triggering the write-back). -/
theorem claimC10_type_module (pkg : Pkg) :
    (wiringUpdatePkg pkg).1.type = some "module" ∧
    (pkg.type ≠ some "module" → (wiringUpdatePkg pkg).2 = true) := by
  unfold wiringUpdatePkg
  have htype :
      (wStage5 (wStage4 (wStage3 (wStage2 (wStage1 (pkg, false)))))).1.type = pkg.type := by
    rw [wStage5_type, wStage4_type, wStage3_type, wStage2_type, wStage1_type]
  constructor
  · unfold wStage6
    by_cases h :
        (wStage5 (wStage4 (wStage3 (wStage2 (wStage1 (pkg, false)))))).1.type = some "module"
    · rw [if_neg (by simpa using h)]
      exact h
    · rw [if_pos h]
  · intro hp
    unfold wStage6
    rw [if_pos (by rw [htype]; exact hp)]

/-- Witness for claim C10 at a manifest carrying type commonjs. -/
theorem claimC10_witness :
    (wiringUpdatePkg
        { dependencies := [], devDependencies := [], scripts := [],
          type := some "commonjs" }).1.type = some "module" ∧
    (wiringUpdatePkg
        { dependencies := [], devDependencies := [], scripts := [],
          type := some "commonjs" }).2 = true :=
  ⟨(claimC10_type_module _).1, (claimC10_type_module _).2 (by decide)⟩

/-! ## Claim C3 -/

/-- The world of a run whose internal transformation (CLI) step fails. -/
def zipWorldCliFail : ZipWorld :=
  { extractOk := true, manifestPresent := true, cliOk := false, packOk := true }

/-- Claim C3 counterexample: on the exit path where the internal
transformation step fails, main exits without removing the temporary
WorkingDirectory, so the removal count is 0, not the exactly-once the claim
asserts for every exit path. -/
theorem claimC3_counterexample :
    (applyZipMain zipWorldCliFail).1 = ZipExit.cliFail ∧
    (applyZipMain zipWorldCliFail).2 = 0 ∧
    (applyZipMain zipWorldCliFail).2 ≠ 1 := by
  decide

/-- Claim C3 as amended: the WorkingDirectory is removed exactly once on the
success, extraction-failure and missing-manifest exit paths, and zero times
on the exit paths where the internal transformation step or the output
archive production fails. -/
theorem claimC3_cleanup_per_path (w : ZipWorld) :
    ((applyZipMain w).1 = .extractFail ∨ (applyZipMain w).1 = .missingManifest ∨
        (applyZipMain w).1 = .success → (applyZipMain w).2 = 1) ∧
    ((applyZipMain w).1 = .cliFail ∨ (applyZipMain w).1 = .packFail →
        (applyZipMain w).2 = 0) := by
  obtain ⟨e, m, c, p⟩ := w
  cases e <;> cases m <;> cases c <;> cases p <;> exact ⟨by decide, by decide⟩

/-- Witness for the amended claim C3 on a fully successful run: one removal. -/
theorem claimC3_witness :
    (applyZipMain
        { extractOk := true, manifestPresent := true, cliOk := true, packOk := true }).2 = 1 :=
  (claimC3_cleanup_per_path _).1 (by decide)

/-! ## Claim C1 -/

/-- A project with the two page files of the specification example and no
router-declaration file. -/
def projectC1 : Project :=
  { hasComponentsDir := false, pagesFiles := some ["Index.jsx", "About.jsx"],
    viewsFiles := none, appTsx := none, appJsx := none, mainTsx := none,
    mainJsx := none, routesTsx := none, routesJsx := none }

/-- Claim C1 (divergence evidence): for the failing input projectC1 the
analyzer would detect the RouteSet containing the root and about routes, yet
the react run writes a routes.jsx binding exactly the single root route to
App, because run invokes applyReactSsgWiring without a routes argument and
never calls analyzeProject; so the file does not contain one entry per
detected route. -/
theorem claimC1_routes_file_ignores_routeset :
    analyzeRoutes projectC1 = ["/", "/about"] ∧
    runReactRoutesPaths projectC1 = ["/"] ∧
    runReactRoutesEntries projectC1 = [routesJsxEntry "/"] ∧
    runReactRoutesPaths projectC1 ≠ analyzeRoutes projectC1 := by
  refine ⟨by decide, rfl, rfl, by decide⟩

/-! ## Claim C2 -/

/-- Balance check for a parenthesis suffix: starting with k open
parentheses, the text closes them all, never closing more than are open. -/
def balAux : Nat → List Char → Bool
  | k, [] => k = 0
  | k, c :: rest =>
    if c = '(' then balAux (k + 1) rest
    else if c = ')' then
      match k with
      | 0 => false
      | m + 1 => balAux m rest
    else balAux k rest

/-- firstIdx finds the position whose suffix starts with the pattern when no
earlier position does. -/
theorem firstIdx_eq_of {pat l : List Char} {n : Nat}
    (hp : pat.isPrefixOf (l.drop n) = true)
    (hmin : ∀ i, i < n → ¬ pat.isPrefixOf (l.drop i) = true) :
    firstIdx pat l = some n := by
  induction l generalizing n with
  | nil =>
    cases n with
    | zero =>
      simp only [List.drop_nil] at hp
      have : pat = [] := by
        cases pat with
        | nil => rfl
        | cons c cs => simp [List.isPrefixOf] at hp
      simp [firstIdx, this]
    | succ m => exact absurd (by simpa using hp) (by simpa using hmin 0 (Nat.succ_pos m))
  | cons c rest ih =>
    cases n with
    | zero =>
      simp only [List.drop_zero] at hp
      simp [firstIdx, hp]
    | succ m =>
      have h0 : ¬ pat.isPrefixOf (c :: rest) = true := by simpa using hmin 0 (Nat.succ_pos m)
      have hrec : firstIdx pat rest = some m :=
        ih (by simpa using hp) (fun i hi => by simpa using hmin (i + 1) (Nat.succ_lt_succ hi))
      simp [firstIdx, h0, hrec]

/-- The depth scan passes over characters that are not parentheses. -/
theorem scanCall_append_nonparen {l : List Char}
    (hl : ∀ c ∈ l, ¬ c = '(' ∧ ¬ c = ')') (d : Int) (tail : List Char) :
    scanCall d (l ++ tail) = scanCall d tail := by
  induction l with
  | nil => rfl
  | cons c rest ih =>
    have hc := hl c (List.mem_cons_self c rest)
    simp only [List.cons_append, scanCall, if_neg hc.1, if_neg hc.2]
    exact ih (fun c' hc' => hl c' (List.mem_cons_of_mem c hc'))

/-- The depth scan runs through a balanced text without its depth ever
reaching zero, leaving the depth as it found it. -/
theorem scanCall_balAux {body : List Char} :
    ∀ (k : Nat), balAux k body = true → ∀ (d : Int), 1 ≤ d → ∀ tail,
      scanCall (d + k) (body ++ tail) = scanCall d tail := by
  induction body with
  | nil =>
    intro k hk d _ tail
    have : k = 0 := by simpa [balAux] using hk
    subst this
    simp
  | cons c rest ih =>
    intro k hk d hd tail
    by_cases hop : c = '('
    · subst hop
      simp only [balAux, if_pos rfl] at hk
      have := ih (k + 1) hk d hd tail
      simp only [List.cons_append, scanCall, if_pos rfl]
      have harith : d + (k : Int) + 1 = d + ((k : Int) + 1) := by ring
      rw [harith]
      simpa using this
    · by_cases hcl : c = ')'
      · subst hcl
        simp only [balAux, if_neg hop, if_pos rfl] at hk
        cases k with
        | zero => exact absurd hk (by simp)
        | succ m =>
          simp only [List.cons_append, scanCall, if_neg hop, if_pos rfl]
          have hne : ¬ (d + ((m + 1 : Nat) : Int) - 1 = 0) := by push_cast; omega
          rw [if_neg hne]
          have harith : d + ((m + 1 : Nat) : Int) - 1 = d + (m : Int) := by push_cast; ring
          rw [harith]
          exact ih m hk d hd tail
      · simp only [balAux, if_neg hop, if_neg hcl] at hk
        simp only [List.cons_append, scanCall, if_neg hop, if_neg hcl]
        exact ih k hk d hd tail

/-- Claim C2: on any configuration text of the shape
pre ++ callee ++ ( ++ body ++ ) ++ post in which the callee token carries no
parentheses, the first callee-call occurrence starts right after pre, and
body is balanced (arbitrary nesting allowed), the removal step deletes the
whole span from the callee token through the matching closing parenthesis,
consumes the comma/whitespace run that follows, and applies the
dangling-comma collapse to what remains.  The source instantiates the callee
token with viteSSG; the witness instantiates the theorem at the pluginX
example of the specification. -/
theorem claimC2_removeInvocation_balanced (callee pre body post : List Char)
    (hcal : ∀ c ∈ callee, ¬ c = '(' ∧ ¬ c = ')')
    (hmin : ∀ i, i < pre.length →
      ¬ (callee ++ ['(']).isPrefixOf ((pre ++ callee ++ '(' :: (body ++ ')' :: post)).drop i) = true)
    (hbal : balAux 0 body = true) :
    removeInvocation callee (pre ++ callee ++ '(' :: (body ++ ')' :: post)) =
      collapseCommaBracket (pre ++ post.dropWhile isCommaWs) := by
  have hdrop : (pre ++ callee ++ '(' :: (body ++ ')' :: post)).drop pre.length =
      callee ++ '(' :: (body ++ ')' :: post) := by
    rw [List.append_assoc]
    exact List.drop_left pre _
  have htake : (pre ++ callee ++ '(' :: (body ++ ')' :: post)).take pre.length = pre := by
    rw [List.append_assoc]
    exact List.take_left pre _
  have hp : (callee ++ ['(']).isPrefixOf
      ((pre ++ callee ++ '(' :: (body ++ ')' :: post)).drop pre.length) = true := by
    rw [hdrop]
    rw [List.isPrefixOf_iff_prefix]
    exact ⟨body ++ ')' :: post, by simp⟩
  have hfi : firstIdx (callee ++ ['(']) (pre ++ callee ++ '(' :: (body ++ ')' :: post)) =
      some pre.length := firstIdx_eq_of hp hmin
  have hscan : scanCall 0 ((pre ++ callee ++ '(' :: (body ++ ')' :: post)).drop pre.length) =
      some post := by
    rw [hdrop, scanCall_append_nonparen hcal]
    have hb := scanCall_balAux 0 hbal 1 (le_refl 1) (')' :: post)
    simp only [Nat.cast_zero, add_zero] at hb
    show scanCall 0 ('(' :: (body ++ ')' :: post)) = some post
    simp only [scanCall, if_pos rfl, if_true]
    rw [show (0 : Int) + 1 = 1 by ring, hb]
    simp [scanCall]
  rw [removeInvocation, hfi]
  dsimp only
  rw [hscan]
  dsimp only
  rw [htake]

/-- The prefix of the specification example for claim C2. -/
def c2pre : List Char := "plugins: [".data

/-- The callee token of the specification example for claim C2. -/
def c2callee : List Char := "pluginX".data

/-- The argument body of the pluginX call in the example, nested
parentheses, brackets and quotes included. -/
def c2body : List Char :=
  [lbrace] ++ " includedRoutes: () => [".data ++ [lbrace] ++ "path:".data ++
    [sqc, '/', sqc] ++ [rbrace] ++ "] ".data ++ [rbrace]

/-- The text after the pluginX call in the example. -/
def c2post : List Char := ", pluginY()]".data

/-- Witness for claim C2: instantiating the removal theorem at the pluginX
example of the specification yields exactly plugins: [pluginY()]. -/
theorem claimC2_witness :
    removeInvocation c2callee (c2pre ++ c2callee ++ '(' :: (c2body ++ ')' :: c2post)) =
      "plugins: [pluginY()]".data :=
  (claimC2_removeInvocation_balanced c2callee c2pre c2body c2post
    (by decide) (by decide) (by decide)).trans (by decide)

/-! ## Analyzer membership lemmas -/

theorem mem_analyzeRoutes {p : Project} {r : String} :
    r ∈ analyzeRoutes p ↔ r ∈ collectRoutes p := by
  unfold analyzeRoutes analyzeProject
  rw [(List.perm_insertionSort jsLe (collectRoutes p).dedup).mem_iff]
  exact List.mem_dedup

theorem analyzeRoutes_nodup (p : Project) : (analyzeRoutes p).Nodup := by
  unfold analyzeRoutes analyzeProject
  rw [(List.perm_insertionSort jsLe (collectRoutes p).dedup).nodup_iff]
  exact (collectRoutes p).nodup_dedup

theorem analyzeRoutes_sorted (p : Project) : List.Sorted jsLe (analyzeRoutes p) :=
  List.sorted_insertionSort jsLe (collectRoutes p).dedup

theorem root_mem_analyzeRoutes (p : Project) : "/" ∈ analyzeRoutes p := by
  rw [mem_analyzeRoutes]
  have : ("/" : String) = String.mk ['/'] := by decide
  rw [this]
  exact List.mem_map_of_mem _ (List.mem_cons_self _ _)

theorem mem_pagesRoutesOf {listing : Option (List String)} {r : List Char} :
    r ∈ pagesRoutesOf listing ↔
      ∃ fs f, listing = some fs ∧ f ∈ fs ∧ isComponentFile f.data = true ∧
        r = routeOfPageFile f.data := by
  cases listing with
  | none => simp [pagesRoutesOf]
  | some fs =>
    simp only [pagesRoutesOf, List.mem_filterMap]
    constructor
    · rintro ⟨f, hf, hr⟩
      by_cases hc : isComponentFile f.data
      · rw [if_pos hc] at hr
        exact ⟨fs, f, rfl, hf, hc, (Option.some.inj hr).symm⟩
      · rw [if_neg hc] at hr
        exact absurd hr (by simp)
    · rintro ⟨fs', f, hfs, hf, hc, rfl⟩
      obtain rfl : fs' = fs := Option.some.inj hfs.symm
      exact ⟨f, hf, by rw [if_pos hc]⟩

theorem pages_route_mem_analyzeRoutes {p : Project} {fs : List String} {f : String}
    (hfs : p.pagesFiles = some fs ∨ p.viewsFiles = some fs) (hf : f ∈ fs)
    (hc : isComponentFile f.data = true) :
    String.mk (routeOfPageFile f.data) ∈ analyzeRoutes p := by
  rw [mem_analyzeRoutes]
  unfold collectRoutes
  apply List.mem_map_of_mem
  apply List.mem_cons_of_mem
  rcases hfs with h | h
  · exact List.mem_append_left _
      (List.mem_append_left _ (mem_pagesRoutesOf.mpr ⟨fs, f, h, hf, hc, rfl⟩))
  · exact List.mem_append_left _
      (List.mem_append_right _ (mem_pagesRoutesOf.mpr ⟨fs, f, h, hf, hc, rfl⟩))

theorem entry_route_mem_analyzeRoutes {p : Project} {c : String}
    (hc : c ∈ entryContents p) {l : List Char} (hl : l ∈ entryRoutesOfContent c.data) :
    String.mk l ∈ analyzeRoutes p := by
  rw [mem_analyzeRoutes]
  unfold collectRoutes
  apply List.mem_map_of_mem
  apply List.mem_cons_of_mem
  refine List.mem_append_right _ (List.mem_flatten.mpr ⟨entryRoutesOfContent c.data, ?_, hl⟩)
  exact List.mem_map_of_mem _ hc

theorem mem_entryRoutesOfContent {content r : List Char} :
    r ∈ entryRoutesOfContent content ↔
      ∃ cap, cap ∈ scanPaths content ∧ cap.contains '*' = false ∧
        cap.contains ':' = false ∧ r = routeOfCapture cap := by
  simp only [entryRoutesOfContent, List.mem_filterMap]
  constructor
  · rintro ⟨cap, hc, hr⟩
    by_cases h : (cap.contains '*' || cap.contains ':') = true
    · rw [if_pos h] at hr
      exact absurd hr (by simp)
    · rw [if_neg h] at hr
      simp only [Bool.or_eq_true, not_or, Bool.not_eq_true] at h
      exact ⟨cap, hc, h.1, h.2, (Option.some.inj hr).symm⟩
  · rintro ⟨cap, hc, h1, h2, rfl⟩
    exact ⟨cap, hc, by rw [if_neg (by rw [h1, h2]; simp)]⟩

theorem routeOfCapture_contains {cap : List Char} {m : Char} (hm : ¬ m = '/')
    (h : cap.contains m = false) : (routeOfCapture cap).contains m = false := by
  unfold routeOfCapture
  simp only [List.contains, List.elem_eq_mem, decide_eq_false_iff_not] at h ⊢
  intro hmem
  rcases List.mem_cons.mp hmem with he | hx
  · exact hm he
  · split at hx
    · exact h (List.mem_of_mem_tail hx)
    · exact h hx

/-! ## Claim C7 -/

/-- Claim C7: route detection maps a pages-directory component file with
lowercased stem index or home to the root route and any other such file to
the slash-prefixed lowercased stem; the returned RouteSet is a
lexicographically ascending, duplicate-free sequence always containing the
root route; when no router-declaration entry file exists these page routes
and the seed are exactly the RouteSet; and the specification example with
page files Index.jsx and About.jsx yields exactly the root and about
routes. -/
theorem claimC7_pages_route_detection :
    (∀ p : Project, "/" ∈ analyzeRoutes p ∧ (analyzeRoutes p).Nodup ∧
      List.Sorted jsLe (analyzeRoutes p)) ∧
    (∀ (p : Project) (fs : List String) (f : String),
      (p.pagesFiles = some fs ∨ p.viewsFiles = some fs) → f ∈ fs →
      isComponentFile f.data = true →
      (((stemOf f.data).map Char.toLower = "index".data ∨
          (stemOf f.data).map Char.toLower = "home".data) →
        "/" ∈ analyzeRoutes p) ∧
      (¬((stemOf f.data).map Char.toLower = "index".data ∨
          (stemOf f.data).map Char.toLower = "home".data) →
        String.mk ('/' :: (stemOf f.data).map Char.toLower) ∈ analyzeRoutes p)) ∧
    (∀ p : Project,
      p.appTsx = none → p.appJsx = none → p.mainTsx = none → p.mainJsx = none →
      p.routesTsx = none → p.routesJsx = none →
      ∀ r : String, r ∈ analyzeRoutes p ↔
        (r = "/" ∨ ∃ fs f, (p.pagesFiles = some fs ∨ p.viewsFiles = some fs) ∧ f ∈ fs ∧
          isComponentFile f.data = true ∧
          ¬((stemOf f.data).map Char.toLower = "index".data ∨
            (stemOf f.data).map Char.toLower = "home".data) ∧
          r = String.mk ('/' :: (stemOf f.data).map Char.toLower))) ∧
    analyzeRoutes projectC1 = ["/", "/about"] := by
  have hroot : ("/" : String) = String.mk ['/'] := by decide
  refine ⟨fun p => ⟨root_mem_analyzeRoutes p, analyzeRoutes_nodup p, analyzeRoutes_sorted p⟩,
    fun p fs f hfs hf hc => ⟨fun _ => root_mem_analyzeRoutes p, fun hno => ?_⟩,
    fun p h1 h2 h3 h4 h5 h6 r => ?_, by decide⟩
  · have := pages_route_mem_analyzeRoutes hfs hf hc
    rwa [routeOfPageFile, if_neg (by simpa using hno)] at this
  · have hentry : entryContents p = [] := by
      simp [entryContents, h1, h2, h3, h4, h5, h6]
    constructor
    · intro hr
      rw [mem_analyzeRoutes] at hr
      unfold collectRoutes at hr
      rw [hentry] at hr
      simp only [List.map_nil, List.flatten_nil, List.append_nil, List.map_cons,
        List.mem_cons, List.map_append, List.mem_append] at hr
      rcases hr with hr | hr
      · exact Or.inl (by rw [hr])
      · have hr' : ∃ l, l ∈ pagesRoutesOf p.pagesFiles ++ pagesRoutesOf p.viewsFiles ∧
            String.mk l = r := by
          rcases hr with hr | hr <;> obtain ⟨l, hl, he⟩ := List.mem_map.mp hr
          · exact ⟨l, List.mem_append_left _ hl, he⟩
          · exact ⟨l, List.mem_append_right _ hl, he⟩
        obtain ⟨l, hl, rfl⟩ := hr'
        have hpv : ∃ fs f, (p.pagesFiles = some fs ∨ p.viewsFiles = some fs) ∧ f ∈ fs ∧
            isComponentFile f.data = true ∧ l = routeOfPageFile f.data := by
          rcases List.mem_append.mp hl with h | h
          · obtain ⟨fs, f, hfs, hf, hcf, he⟩ := mem_pagesRoutesOf.mp h
            exact ⟨fs, f, Or.inl hfs, hf, hcf, he⟩
          · obtain ⟨fs, f, hfs, hf, hcf, he⟩ := mem_pagesRoutesOf.mp h
            exact ⟨fs, f, Or.inr hfs, hf, hcf, he⟩
        obtain ⟨fs, f, hfs, hf, hcf, rfl⟩ := hpv
        by_cases hih : (stemOf f.data).map Char.toLower = "index".data ∨
            (stemOf f.data).map Char.toLower = "home".data
        · left
          rw [routeOfPageFile, if_pos (by simpa using hih)]
        · right
          exact ⟨fs, f, hfs, hf, hcf, hih,
            by rw [routeOfPageFile, if_neg (by simpa using hih)]⟩
    · rintro (rfl | ⟨fs, f, hfs, hf, hcf, hno, rfl⟩)
      · exact root_mem_analyzeRoutes p
      · have := pages_route_mem_analyzeRoutes hfs hf hcf
        rwa [routeOfPageFile, if_neg (by simpa using hno)] at this

/-- Witness for claim C7: at the example project the About.jsx page file
contributes the about route, and membership of the about route in the
detected RouteSet decomposes through the characterisation. -/
theorem claimC7_witness :
    String.mk ('/' :: (stemOf ("About.jsx" : String).data).map Char.toLower) ∈
      analyzeRoutes projectC1 ∧
    ("/about" = "/" ∨ ∃ fs f,
      (projectC1.pagesFiles = some fs ∨ projectC1.viewsFiles = some fs) ∧ f ∈ fs ∧
      isComponentFile f.data = true ∧
      ¬((stemOf f.data).map Char.toLower = "index".data ∨
        (stemOf f.data).map Char.toLower = "home".data) ∧
      "/about" = String.mk ('/' :: (stemOf f.data).map Char.toLower)) :=
  ⟨(claimC7_pages_route_detection.2.1 projectC1 ["Index.jsx", "About.jsx"] "About.jsx"
      (Or.inl rfl) (by decide) (by decide)).2 (by decide),
    (claimC7_pages_route_detection.2.2.1 projectC1 rfl rfl rfl rfl rfl rfl "/about").mp
      (by decide)⟩

/-! ## Claim C8 -/

/-- The entry-file content of the specification example for claim C8. -/
def c8content : String :=
  "<Route path=\"/contact\" /><Route path=\"*\" /><Route path=\":id\" />"

/-- A project whose only analyzable file is an entry file holding the three
path declarations of the specification example. -/
def projectC8 : Project :=
  { hasComponentsDir := false, pagesFiles := none,
    viewsFiles := none, appTsx := none, appJsx := some c8content, mainTsx := none,
    mainJsx := none, routesTsx := none, routesJsx := none }

/-- Claim C8: every value captured from a path attribute of a scanned entry
file joins the RouteSet when it carries no wildcard and no parameter marker;
captured values carrying either marker are discarded, so no textual-scan
route carries a marker; and the example entry file yields a RouteSet that
contains the contact route and neither the wildcard nor the parameterized
entry. -/
theorem claimC8_textual_route_filter :
    (∀ (p : Project) (c : String) (cap : List Char),
      c ∈ entryContents p → cap ∈ scanPaths c.data →
      cap.contains '*' = false → cap.contains ':' = false →
      String.mk (routeOfCapture cap) ∈ analyzeRoutes p) ∧
    (∀ content r : List Char, r ∈ entryRoutesOfContent content →
      r.contains '*' = false ∧ r.contains ':' = false) ∧
    analyzeRoutes projectC8 = ["/", "/contact"] ∧
    "/contact" ∈ analyzeRoutes projectC8 ∧
    (∀ r : String, r ∈ analyzeRoutes projectC8 →
      r.data.contains '*' = false ∧ r.data.contains ':' = false) := by
  refine ⟨fun p c cap hc hcap h1 h2 =>
      entry_route_mem_analyzeRoutes hc (mem_entryRoutesOfContent.mpr ⟨cap, hcap, h1, h2, rfl⟩),
    fun content r hr => ?_, by decide, by decide, by decide⟩
  obtain ⟨cap, _, h1, h2, rfl⟩ := mem_entryRoutesOfContent.mp hr
  exact ⟨routeOfCapture_contains (by decide) h1, routeOfCapture_contains (by decide) h2⟩

/-- Witness for claim C8: the capture contact taken from the example entry
file passes the marker filter and its route joins the detected RouteSet. -/
theorem claimC8_witness :
    c8content ∈ entryContents projectC8 ∧
    ("contact" : String).data ∈ scanPaths c8content.data ∧
    String.mk (routeOfCapture ("contact" : String).data) ∈ analyzeRoutes projectC8 :=
  ⟨by decide, by decide,
    claimC8_textual_route_filter.1 projectC8 c8content ("contact" : String).data
      (by decide) (by decide) (by decide) (by decide)⟩

/-! ## Merge fold lemmas -/

theorem addMissingList_nil (other : List (String × String))
    (init : List (String × String) × Bool) : addMissingList other init [] = init := rfl

theorem addMissingList_cons (other : List (String × String))
    (init : List (String × String) × Bool) (kv : String × String)
    (entries : List (String × String)) :
    addMissingList other init (kv :: entries) =
      addMissingList other (amStep other init kv) entries := rfl

theorem absentish_setKey_ne (m : List (String × String)) {k j : String} (v : String)
    (h : j ≠ k) : absentish (setKey m k v) j = absentish m j := by
  unfold absentish
  rw [lookupKey_setKey_ne m v h]

theorem absentish_true_iff (m : List (String × String)) (k : String) :
    absentish m k = true ↔ lookupKey m k = none ∨ lookupKey m k = some "" := by
  unfold absentish
  cases h : lookupKey m k <;> simp

theorem absentish_false_iff (m : List (String × String)) (k : String) :
    absentish m k = false ↔ ∃ u, lookupKey m k = some u ∧ ¬ u = "" := by
  unfold absentish
  cases h : lookupKey m k <;> simp

/-- The core invariant of one dependency-adding loop, relating the mapping
after the fold to the mapping before it: (i) a key falsy afterwards was
falsy before; (ii) a non-empty stored value survives untouched; (iii) a
present key stays present; (iv) a key whose binding changed was falsy in
both the target and the other mapping; (v) every stored value comes from
the original mapping or from the entry list. -/
theorem aml_invariant (other : List (String × String)) (entries : List (String × String)) :
    ∀ (t0 : List (String × String)) (b0 : Bool),
      (∀ k, absentish (addMissingList other (t0, b0) entries).1 k = true →
        absentish t0 k = true) ∧
      (∀ k v, lookupKey t0 k = some v → ¬ v = "" →
        lookupKey (addMissingList other (t0, b0) entries).1 k = some v) ∧
      (∀ k, (lookupKey t0 k).isSome →
        (lookupKey (addMissingList other (t0, b0) entries).1 k).isSome) ∧
      (∀ k, ¬ lookupKey (addMissingList other (t0, b0) entries).1 k = lookupKey t0 k →
        absentish t0 k = true ∧ absentish other k = true) ∧
      (∀ k w, lookupKey (addMissingList other (t0, b0) entries).1 k = some w →
        lookupKey t0 k = some w ∨ (k, w) ∈ entries) := by
  induction entries with
  | nil =>
    intro t0 b0
    rw [addMissingList_nil]
    exact ⟨fun _ h => h, fun _ _ h _ => h, fun _ h => h,
      fun _ h => absurd rfl h, fun _ _ h => Or.inl h⟩
  | cons kv tail ih =>
    intro t0 b0
    obtain ⟨k0, v0⟩ := kv
    rw [addMissingList_cons]
    unfold amStep
    by_cases hc : (absentish t0 k0 && absentish other k0) = true
    · rw [if_pos hc]
      dsimp only
      obtain ⟨habs0, habsO⟩ := Bool.and_eq_true_iff.mp hc
      obtain ⟨ih1, ih2, ih3, ih4, ih5⟩ := ih (setKey t0 k0 v0) true
      refine ⟨?_, ?_, ?_, ?_, ?_⟩
      · intro k h
        have h' := ih1 k h
        by_cases hk : k = k0
        · subst hk
          exact habs0
        · rwa [absentish_setKey_ne _ _ hk] at h'
      · intro k v hv hne
        by_cases hk : k = k0
        · subst hk
          exfalso
          rcases (absentish_true_iff t0 k).mp habs0 with h0 | h0 <;> rw [hv] at h0
          · exact absurd h0 (by simp)
          · exact hne (Option.some.inj h0)
        · exact ih2 k v (by rwa [lookupKey_setKey_ne _ _ hk]) hne
      · intro k hs
        by_cases hk : k = k0
        · subst hk
          exact ih3 k (by rw [lookupKey_setKey_self]; rfl)
        · exact ih3 k (by rwa [lookupKey_setKey_ne _ _ hk])
      · intro k hne
        by_cases hk : k = k0
        · subst hk
          exact ⟨habs0, habsO⟩
        · by_cases h2 :
              lookupKey (addMissingList other (setKey t0 k0 v0, true) tail).1 k =
                lookupKey (setKey t0 k0 v0) k
          · rw [h2, lookupKey_setKey_ne _ _ hk] at hne
            exact absurd rfl hne
          · have h3 := ih4 k h2
            exact ⟨by rw [← absentish_setKey_ne t0 v0 hk]; exact h3.1, h3.2⟩
      · intro k w hw
        rcases ih5 k w hw with h | h
        · by_cases hk : k = k0
          · subst hk
            rw [lookupKey_setKey_self] at h
            exact Or.inr (by rw [Option.some.inj h]; exact List.mem_cons_self _ _)
          · exact Or.inl (by rwa [lookupKey_setKey_ne _ _ hk] at h)
        · exact Or.inr (List.mem_cons_of_mem _ h)
    · rw [if_neg hc]
      obtain ⟨ih1, ih2, ih3, ih4, ih5⟩ := ih t0 b0
      exact ⟨ih1, ih2, ih3, ih4,
        fun k w hw => (ih5 k w hw).imp id (List.mem_cons_of_mem _)⟩

/-- After one loop, an entry whose key is still falsy in the result and
falsy in the other mapping is in fact bound to its listed value: the loop
either wrote it, or was blocked by a value that cannot have stayed falsy. -/
theorem aml_filled (other : List (String × String)) (entries : List (String × String)) :
    ∀ (t0 : List (String × String)) (b0 : Bool) (k v : String), (k, v) ∈ entries →
      absentish (addMissingList other (t0, b0) entries).1 k = true →
      absentish other k = true →
      lookupKey (addMissingList other (t0, b0) entries).1 k = some v := by
  induction entries with
  | nil =>
    intro _ _ _ _ h
    exact absurd h (List.not_mem_nil _)
  | cons kv tail ih =>
    intro t0 b0 k v hmem habs habsO
    obtain ⟨k0, v0⟩ := kv
    rw [addMissingList_cons] at habs ⊢
    unfold amStep at habs ⊢
    by_cases hc : (absentish t0 k0 && absentish other k0) = true
    · rw [if_pos hc] at habs ⊢
      dsimp only at habs ⊢
      rcases List.mem_cons.mp hmem with he | hmemtail
      · obtain ⟨rfl, rfl⟩ : k = k0 ∧ v = v0 := by
          constructor <;> [exact congrArg Prod.fst he; exact congrArg Prod.snd he]
        by_cases hv0 : v = ""
        · have hsome :
              (lookupKey (addMissingList other (setKey t0 k v, true) tail).1 k).isSome :=
            (aml_invariant other tail (setKey t0 k v) true).2.2.1 k
              (by rw [lookupKey_setKey_self]; rfl)
          obtain ⟨w, hw⟩ := Option.isSome_iff_exists.mp hsome
          have hwe : w = "" := by
            rcases (absentish_true_iff _ k).mp habs with h0 | h0 <;> rw [hw] at h0
            · exact absurd h0 (by simp)
            · exact Option.some.inj h0
          rw [hw, hwe, hv0]
        · exact (aml_invariant other tail (setKey t0 k v) true).2.1 k v
            (lookupKey_setKey_self _ _ _) hv0
      · exact ih (setKey t0 k0 v0) true k v hmemtail habs habsO
    · rw [if_neg hc] at habs ⊢
      rcases List.mem_cons.mp hmem with he | hmemtail
      · obtain ⟨rfl, rfl⟩ : k = k0 ∧ v = v0 := by
          constructor <;> [exact congrArg Prod.fst he; exact congrArg Prod.snd he]
        have ht0 : absentish t0 k = false := by
          cases ha : absentish t0 k
          · rfl
          · exact absurd (by rw [ha, habsO]; rfl) hc
        obtain ⟨u, hu, hune⟩ := (absentish_false_iff t0 k).mp ht0
        have hres := (aml_invariant other tail t0 b0).2.1 k u hu hune
        exfalso
        rcases (absentish_true_iff _ k).mp habs with h0 | h0 <;> rw [hres] at h0
        · exact absurd h0 (by simp)
        · exact hune (Option.some.inj h0)
      · exact ih t0 b0 k v hmemtail habs habsO

/-- A loop whose every entry is, when still falsy in both mappings, already
bound to its listed value leaves the mapping unchanged. -/
theorem aml_noop (other : List (String × String)) (entries : List (String × String)) :
    ∀ (t0 : List (String × String)) (b0 : Bool),
      (∀ k v, (k, v) ∈ entries → absentish t0 k = true → absentish other k = true →
        lookupKey t0 k = some v) →
      (addMissingList other (t0, b0) entries).1 = t0 := by
  induction entries with
  | nil =>
    intro t0 b0 _
    rfl
  | cons kv tail ih =>
    intro t0 b0 h
    obtain ⟨k0, v0⟩ := kv
    rw [addMissingList_cons]
    unfold amStep
    by_cases hc : (absentish t0 k0 && absentish other k0) = true
    · rw [if_pos hc]
      dsimp only
      obtain ⟨h1, h2⟩ := Bool.and_eq_true_iff.mp hc
      have hset : setKey t0 k0 v0 = t0 :=
        setKey_of_lookup (h k0 v0 (List.mem_cons_self _ _) h1 h2)
      rw [hset]
      exact ih t0 true (fun k v hm => h k v (List.mem_cons_of_mem _ hm))
    · rw [if_neg hc]
      exact ih t0 b0 (fun k v hm => h k v (List.mem_cons_of_mem _ hm))

/-- The updated flag never falls back once raised. -/
theorem aml_flag_true (other : List (String × String)) (entries : List (String × String)) :
    ∀ t0 : List (String × String), (addMissingList other (t0, true) entries).2 = true := by
  induction entries with
  | nil =>
    intro _
    rfl
  | cons kv tail ih =>
    intro t0
    rw [addMissingList_cons]
    unfold amStep
    split
    · exact ih _
    · exact ih t0

/-- A loop that reports no mutation started with an unraised flag and left
the mapping untouched. -/
theorem aml_flag_false (other : List (String × String)) (entries : List (String × String)) :
    ∀ (t0 : List (String × String)) (b0 : Bool),
      (addMissingList other (t0, b0) entries).2 = false →
      b0 = false ∧ (addMissingList other (t0, b0) entries).1 = t0 := by
  induction entries with
  | nil =>
    intro t0 b0 h
    exact ⟨h, rfl⟩
  | cons kv tail ih =>
    intro t0 b0 h
    rw [addMissingList_cons] at h ⊢
    unfold amStep at h ⊢
    by_cases hc : (absentish t0 kv.1 && absentish other kv.1) = true
    · rw [if_pos hc] at h
      exact absurd h (by rw [aml_flag_true]; simp)
    · rw [if_neg hc] at h ⊢
      exact ih t0 b0 h

/-- A loop over non-empty listed values that reports a mutation really
changed some binding. -/
theorem aml_changed (other : List (String × String)) :
    ∀ (entries : List (String × String)) (t0 : List (String × String)),
      (∀ kv ∈ entries, ¬ kv.2 = "") →
      (addMissingList other (t0, false) entries).2 = true →
      ∃ k, ¬ lookupKey (addMissingList other (t0, false) entries).1 k = lookupKey t0 k := by
  intro entries
  induction entries with
  | nil =>
    intro t0 _ h
    exact absurd h (by rw [addMissingList_nil]; simp)
  | cons kv tail ih =>
    intro t0 hent h
    obtain ⟨k0, v0⟩ := kv
    rw [addMissingList_cons] at h ⊢
    unfold amStep at h ⊢
    by_cases hc : (absentish t0 k0 && absentish other k0) = true
    · rw [if_pos hc] at h ⊢
      dsimp only at h ⊢
      obtain ⟨h1, _⟩ := Bool.and_eq_true_iff.mp hc
      have hv0 : ¬ v0 = "" := hent (k0, v0) (List.mem_cons_self _ _)
      refine ⟨k0, ?_⟩
      have hres := (aml_invariant other tail (setKey t0 k0 v0) true).2.1 k0 v0
        (lookupKey_setKey_self _ _ _) hv0
      rw [hres]
      rcases (absentish_true_iff t0 k0).mp h1 with h0 | h0 <;> rw [h0]
      · simp
      · intro he
        exact hv0 (Option.some.inj he)
    · rw [if_neg hc] at h ⊢
      exact ih t0 (fun kv hm => hent kv (List.mem_cons_of_mem _ hm)) h

/-! ## Substring and stage lemmas for the wiring step -/

theorem lookupKey_mem {m : List (String × String)} {k v : String}
    (h : lookupKey m k = some v) : (k, v) ∈ m := by
  induction m with
  | nil => exact absurd h (by simp [lookupKey])
  | cons kv rest ih =>
    obtain ⟨k', v'⟩ := kv
    by_cases hk : k' = k
    · subst hk
      rw [lookupKey, if_pos rfl] at h
      exact Option.some.inj h ▸ List.mem_cons_self _ _
    · rw [lookupKey, if_neg hk] at h
      exact List.mem_cons_of_mem _ (ih h)

theorem substrOf_append_mid (pat l1 l2 : List Char) :
    substrOf pat (l1 ++ (pat ++ l2)) = true := by
  induction l1 with
  | nil =>
    unfold substrOf
    have hp : pat.isPrefixOf (pat ++ l2) = true :=
      List.isPrefixOf_iff_prefix.mpr ⟨l2, rfl⟩
    cases pat with
    | nil => cases l2 <;> simp [firstIdx, List.isPrefixOf]
    | cons p ps =>
      simp only [List.nil_append]
      rw [List.cons_append, firstIdx]
      rw [← List.cons_append, if_pos hp]
      rfl
  | cons c rest ih =>
    unfold substrOf at ih ⊢
    rw [List.cons_append, firstIdx]
    by_cases hp : pat.isPrefixOf (c :: (rest ++ (pat ++ l2))) = true
    · rw [if_pos hp]
      rfl
    · rw [if_neg hp]
      simpa using ih

theorem substrOf_replaceFirst {pat repl l : List Char} (h : substrOf pat l = true) :
    substrOf repl (replaceFirst pat repl l) = true := by
  unfold substrOf at h
  obtain ⟨i, hi⟩ := Option.isSome_iff_exists.mp h
  unfold replaceFirst
  rw [hi]
  dsimp only
  rw [List.append_assoc]
  exact substrOf_append_mid repl _ _

theorem wStage6_type_module (s : Pkg × Bool) : (wStage6 s).1.type = some "module" := by
  unfold wStage6
  by_cases h : s.1.type = some "module"
  · rw [if_neg (by simpa using h)]
    exact h
  · rw [if_pos h]

theorem wStage1_id {s : Pkg × Bool}
    (h : (absentish s.1.dependencies "react-router-dom" &&
      absentish s.1.devDependencies "react-router-dom") = false) : wStage1 s = s := by
  unfold wStage1
  rw [if_neg (by rw [h]; simp)]

theorem wStage2_id {s : Pkg × Bool}
    (h : (absentish s.1.devDependencies "vite-react-ssg" &&
      absentish s.1.dependencies "vite-react-ssg") = false) : wStage2 s = s := by
  unfold wStage2
  rw [if_neg (by rw [h]; simp)]

theorem wStage3_id {s : Pkg × Bool}
    (h : ∀ bs, lookupKey s.1.scripts "build" = some bs →
      (!(bs = "") && substrOf viteTok bs.data && !substrOf vrsgTok bs.data) = false) :
    wStage3 s = s := by
  unfold wStage3
  cases hl : lookupKey s.1.scripts "build" with
  | none => rfl
  | some bs =>
    dsimp only
    rw [if_neg (by rw [h bs hl]; simp)]

theorem wStage4_id {s : Pkg × Bool}
    (h : ∀ ds, lookupKey s.1.scripts "dev" = some ds →
      (!(ds = "") && substrOf viteTok ds.data && !substrOf vrsgTok ds.data) = false) :
    wStage4 s = s := by
  unfold wStage4
  cases hl : lookupKey s.1.scripts "dev" with
  | none => rfl
  | some ds =>
    dsimp only
    rw [if_neg (by rw [h ds hl]; simp)]

theorem wStage5_id {s : Pkg × Bool} (h : absentish s.1.scripts "dev" = false) :
    wStage5 s = s := by
  unfold wStage5
  rw [if_neg (by rw [h]; simp)]

theorem wStage6_id {s : Pkg × Bool} (h : s.1.type = some "module") : wStage6 s = s := by
  unfold wStage6
  rw [if_neg (by simpa using h)]

theorem wStage1_flag_false {s : Pkg × Bool} (h : (wStage1 s).2 = false) :
    wStage1 s = s ∧ s.2 = false := by
  unfold wStage1 at h ⊢
  split at h
  · exact absurd h (by simp)
  · exact ⟨by rw [if_neg (by assumption)], h⟩

theorem wStage2_flag_false {s : Pkg × Bool} (h : (wStage2 s).2 = false) :
    wStage2 s = s ∧ s.2 = false := by
  unfold wStage2 at h ⊢
  split at h
  · exact absurd h (by simp)
  · exact ⟨by rw [if_neg (by assumption)], h⟩

theorem wStage3_flag_false {s : Pkg × Bool} (h : (wStage3 s).2 = false) :
    wStage3 s = s ∧ s.2 = false := by
  unfold wStage3 at h ⊢
  split at h
  next bs heq =>
    split at h
    · exact absurd h (by simp)
    · exact ⟨if_neg (by assumption), h⟩
  next heq => exact ⟨rfl, h⟩

theorem wStage4_flag_false {s : Pkg × Bool} (h : (wStage4 s).2 = false) :
    wStage4 s = s ∧ s.2 = false := by
  unfold wStage4 at h ⊢
  split at h
  next ds heq =>
    split at h
    · exact absurd h (by simp)
    · exact ⟨if_neg (by assumption), h⟩
  next heq => exact ⟨rfl, h⟩

theorem wStage5_flag_false {s : Pkg × Bool} (h : (wStage5 s).2 = false) :
    wStage5 s = s ∧ s.2 = false := by
  unfold wStage5 at h ⊢
  split at h
  · exact absurd h (by simp)
  · exact ⟨by rw [if_neg (by assumption)], h⟩

theorem wStage6_flag_false {s : Pkg × Bool} (h : (wStage6 s).2 = false) :
    wStage6 s = s ∧ s.2 = false := by
  unfold wStage6 at h ⊢
  split at h
  · exact absurd h (by simp)
  · exact ⟨by rw [if_neg (by assumption)], h⟩

theorem wStage1_deps_lookup_ne (s : Pkg × Bool) {k : String}
    (h : k ≠ "react-router-dom") :
    lookupKey (wStage1 s).1.dependencies k = lookupKey s.1.dependencies k := by
  unfold wStage1
  split
  · exact lookupKey_setKey_ne _ _ h
  · rfl

theorem wStage2_devDeps_lookup_ne (s : Pkg × Bool) {k : String}
    (h : k ≠ "vite-react-ssg") :
    lookupKey (wStage2 s).1.devDependencies k = lookupKey s.1.devDependencies k := by
  unfold wStage2
  split
  · exact lookupKey_setKey_ne _ _ h
  · rfl

theorem wStage3_scripts_lookup_ne (s : Pkg × Bool) {k : String} (h : k ≠ "build") :
    lookupKey (wStage3 s).1.scripts k = lookupKey s.1.scripts k := by
  unfold wStage3
  split
  · split
    · exact lookupKey_setKey_ne _ _ h
    · rfl
  · rfl

theorem wStage4_scripts_lookup_ne (s : Pkg × Bool) {k : String} (h : k ≠ "dev") :
    lookupKey (wStage4 s).1.scripts k = lookupKey s.1.scripts k := by
  unfold wStage4
  split
  · split
    · exact lookupKey_setKey_ne _ _ h
    · rfl
  · rfl

theorem wStage5_scripts_lookup_ne (s : Pkg × Bool) {k : String} (h : k ≠ "dev") :
    lookupKey (wStage5 s).1.scripts k = lookupKey s.1.scripts k := by
  unfold wStage5
  split
  · exact lookupKey_setKey_ne _ _ h
  · rfl

theorem bool_eq_false {b : Bool} (h : ¬ b = true) : b = false := by
  cases b
  · rfl
  · exact absurd rfl h

/-- After one wiring run, none of the six guards can fire again: the
dependencies are present, the scripts mention vite-react-ssg or no longer
qualify, the dev script is truthy and the type marker is module. -/
theorem wiring_second_guards (pkg : Pkg) :
    (absentish (wiringUpdatePkg pkg).1.dependencies "react-router-dom" &&
      absentish (wiringUpdatePkg pkg).1.devDependencies "react-router-dom") = false ∧
    (absentish (wiringUpdatePkg pkg).1.devDependencies "vite-react-ssg" &&
      absentish (wiringUpdatePkg pkg).1.dependencies "vite-react-ssg") = false ∧
    (∀ bs, lookupKey (wiringUpdatePkg pkg).1.scripts "build" = some bs →
      (!(bs = "") && substrOf viteTok bs.data && !substrOf vrsgTok bs.data) = false) ∧
    (∀ ds, lookupKey (wiringUpdatePkg pkg).1.scripts "dev" = some ds →
      (!(ds = "") && substrOf viteTok ds.data && !substrOf vrsgTok ds.data) = false) ∧
    absentish (wiringUpdatePkg pkg).1.scripts "dev" = false ∧
    (wiringUpdatePkg pkg).1.type = some "module" := by
  set s1 := wStage1 (pkg, false) with hs1
  set s2 := wStage2 s1 with hs2
  set s3 := wStage3 s2 with hs3
  set s4 := wStage4 s3 with hs4
  set s5 := wStage5 s4 with hs5
  have hq : wiringUpdatePkg pkg = wStage6 s5 := rfl
  have hdeps : (wiringUpdatePkg pkg).1.dependencies = s1.1.dependencies := by
    rw [hq, wStage6_dependencies, hs5, wStage5_dependencies, hs4, wStage4_dependencies,
      hs3, wStage3_dependencies, hs2, wStage2_dependencies]
  have hdd : (wiringUpdatePkg pkg).1.devDependencies = s2.1.devDependencies := by
    rw [hq, wStage6_devDependencies, hs5, wStage5_devDependencies, hs4,
      wStage4_devDependencies, hs3, wStage3_devDependencies]
  have hscr : (wiringUpdatePkg pkg).1.scripts = s5.1.scripts := by
    rw [hq, wStage6_scripts]
  refine ⟨?_, ?_, ?_, ?_, ?_, ?_⟩
  · by_cases g1 : (absentish pkg.dependencies "react-router-dom" &&
        absentish pkg.devDependencies "react-router-dom") = true
    · have hfire : s1 =
          ({ pkg with
              dependencies := setKey pkg.dependencies "react-router-dom" "^6.19.0" },
            true) := by
        rw [hs1]
        unfold wStage1
        dsimp only
        rw [if_pos g1]
      have habs : absentish (wiringUpdatePkg pkg).1.dependencies "react-router-dom" = false := by
        rw [hdeps, hfire]
        exact (absentish_false_iff _ _).mpr
          ⟨"^6.19.0", lookupKey_setKey_self _ _ _, by decide⟩
      rw [habs]
      rfl
    · have hid : s1 = (pkg, false) := by
        rw [hs1]
        exact wStage1_id (bool_eq_false g1)
      have h1 : (wiringUpdatePkg pkg).1.dependencies = pkg.dependencies := by
        rw [hdeps, hid]
      have h2 : absentish (wiringUpdatePkg pkg).1.devDependencies "react-router-dom" =
          absentish pkg.devDependencies "react-router-dom" := by
        unfold absentish
        rw [hdd, hs2, wStage2_devDeps_lookup_ne _ (by decide), hid]
      rw [h1, h2]
      exact bool_eq_false g1
  · by_cases g2 : (absentish s1.1.devDependencies "vite-react-ssg" &&
        absentish s1.1.dependencies "vite-react-ssg") = true
    · have hfire : s2 =
          ({ s1.1 with
              devDependencies := setKey s1.1.devDependencies "vite-react-ssg" "^0.8.9" },
            true) := by
        rw [hs2]
        unfold wStage2
        rw [if_pos g2]
      have habs :
          absentish (wiringUpdatePkg pkg).1.devDependencies "vite-react-ssg" = false := by
        rw [hdd, hfire]
        exact (absentish_false_iff _ _).mpr
          ⟨"^0.8.9", lookupKey_setKey_self _ _ _, by decide⟩
      rw [habs]
      rfl
    · have hid : s2 = s1 := by
        rw [hs2]
        exact wStage2_id (bool_eq_false g2)
      have h1 : (wiringUpdatePkg pkg).1.devDependencies = s1.1.devDependencies := by
        rw [hdd, hid]
      have h2 : (wiringUpdatePkg pkg).1.dependencies = s1.1.dependencies := hdeps
      rw [h1, h2]
      exact bool_eq_false g2
  · have hlb : lookupKey (wiringUpdatePkg pkg).1.scripts "build" =
        lookupKey s3.1.scripts "build" := by
      rw [hscr, hs5, wStage5_scripts_lookup_ne _ (by decide), hs4,
        wStage4_scripts_lookup_ne _ (by decide)]
    cases hb : lookupKey s2.1.scripts "build" with
    | none =>
      have hid : s3 = s2 := by
        rw [hs3]
        exact wStage3_id (fun bs hbs => by rw [hb] at hbs; exact absurd hbs (by simp))
      intro bs hbs
      rw [hlb, hid, hb] at hbs
      exact absurd hbs (by simp)
    | some bs0 =>
      by_cases gc : (!(bs0 = "") && substrOf viteTok bs0.data && !substrOf vrsgTok bs0.data) = true
      · have hfire : s3 =
            ({ s2.1 with
                scripts := setKey s2.1.scripts "build" (scriptViteRewrite bs0) },
              true) := by
          rw [hs3]
          unfold wStage3
          rw [hb]
          dsimp only
          rw [if_pos gc]
        intro bs hbs
        rw [hlb, hfire] at hbs
        have hbs' : bs = scriptViteRewrite bs0 := by
          have := lookupKey_setKey_self s2.1.scripts "build" (scriptViteRewrite bs0)
          rw [this] at hbs
          exact (Option.some.inj hbs).symm
        obtain ⟨hab, hnv⟩ := Bool.and_eq_true_iff.mp gc
        obtain ⟨hne0, hvi⟩ := Bool.and_eq_true_iff.mp hab
        have hsub : substrOf vrsgTok bs.data = true := by
          rw [hbs']
          exact substrOf_replaceFirst hvi
        rw [hsub]
        simp
      · have hid : s3 = s2 := by
          rw [hs3]
          exact wStage3_id (fun bs hbs => by
            rw [hb] at hbs
            rw [← Option.some.inj hbs]
            exact bool_eq_false gc)
        intro bs hbs
        rw [hlb, hid, hb] at hbs
        rw [← Option.some.inj hbs]
        exact bool_eq_false gc
  · by_cases g5 : absentish s4.1.scripts "dev" = true
    · have hfire : s5 =
          ({ s4.1 with
              scripts := setKey s4.1.scripts "dev" "vite-react-ssg dev" },
            true) := by
        rw [hs5]
        unfold wStage5
        rw [if_pos g5]
      intro ds hds
      rw [hscr, hfire] at hds
      have hds' : ds = "vite-react-ssg dev" := by
        have := lookupKey_setKey_self s4.1.scripts "dev" "vite-react-ssg dev"
        rw [this] at hds
        exact (Option.some.inj hds).symm
      rw [hds']
      decide
    · have hid5 : s5 = s4 := by
        rw [hs5]
        exact wStage5_id (bool_eq_false g5)
      cases hd : lookupKey s3.1.scripts "dev" with
      | none =>
        have hid4 : s4 = s3 := by
          rw [hs4]
          exact wStage4_id (fun ds hds => by rw [hd] at hds; exact absurd hds (by simp))
        intro ds hds
        rw [hscr, hid5, hid4, hd] at hds
        exact absurd hds (by simp)
      | some ds0 =>
        by_cases gd : (!(ds0 = "") && substrOf viteTok ds0.data && !substrOf vrsgTok ds0.data) = true
        · have hfire : s4 =
              ({ s3.1 with
                  scripts := setKey s3.1.scripts "dev" (scriptViteRewrite ds0) },
                true) := by
            rw [hs4]
            unfold wStage4
            rw [hd]
            dsimp only
            rw [if_pos gd]
          intro ds hds
          rw [hscr, hid5, hfire] at hds
          have hds' : ds = scriptViteRewrite ds0 := by
            have := lookupKey_setKey_self s3.1.scripts "dev" (scriptViteRewrite ds0)
            rw [this] at hds
            exact (Option.some.inj hds).symm
          obtain ⟨hab, hnv⟩ := Bool.and_eq_true_iff.mp gd
          obtain ⟨hne0, hvi⟩ := Bool.and_eq_true_iff.mp hab
          have hsub : substrOf vrsgTok ds.data = true := by
            rw [hds']
            exact substrOf_replaceFirst hvi
          rw [hsub]
          simp
        · have hid4 : s4 = s3 := by
            rw [hs4]
            exact wStage4_id (fun ds hds => by
              rw [hd] at hds
              rw [← Option.some.inj hds]
              exact bool_eq_false gd)
          intro ds hds
          rw [hscr, hid5, hid4, hd] at hds
          rw [← Option.some.inj hds]
          exact bool_eq_false gd
  · by_cases g5 : absentish s4.1.scripts "dev" = true
    · have hfire : s5 =
          ({ s4.1 with
              scripts := setKey s4.1.scripts "dev" "vite-react-ssg dev" },
            true) := by
        rw [hs5]
        unfold wStage5
        rw [if_pos g5]
      rw [hscr, hfire]
      exact (absentish_false_iff _ _).mpr
        ⟨"vite-react-ssg dev", lookupKey_setKey_self _ _ _, by decide⟩
    · have hid5 : s5 = s4 := by
        rw [hs5]
        exact wStage5_id (bool_eq_false g5)
      rw [hscr, hid5]
      exact bool_eq_false g5
  · rw [hq]
    exact wStage6_type_module s5

/-! ## Idempotence and mutation reporting of the manifest writers -/

theorem upj_dependencies (pkg : Pkg) :
    (updatePackageJson pkg).1.dependencies =
      (mergeDependencies SEO_DEPENDENCIES SEO_DEV_DEPENDENCIES
        pkg.dependencies pkg.devDependencies).1 := rfl

theorem upj_devDependencies (pkg : Pkg) :
    (updatePackageJson pkg).1.devDependencies =
      (mergeDependencies SEO_DEPENDENCIES SEO_DEV_DEPENDENCIES
        pkg.dependencies pkg.devDependencies).2.1 := rfl

theorem upj_type (pkg : Pkg) : (updatePackageJson pkg).1.type = pkg.type := rfl

theorem upj_scripts_pos (pkg : Pkg) (h : absentish pkg.scripts "analyze" = true) :
    (updatePackageJson pkg).1.scripts =
      setKey pkg.scripts "analyze" "npx vite-bundle-visualizer" := by
  unfold updatePackageJson
  dsimp only
  rw [if_pos h]

theorem upj_scripts_neg (pkg : Pkg) (h : absentish pkg.scripts "analyze" = false) :
    (updatePackageJson pkg).1.scripts = pkg.scripts := by
  unfold updatePackageJson
  dsimp only
  rw [if_neg (by rw [h]; simp)]

theorem upj_flag_pos (pkg : Pkg) (h : absentish pkg.scripts "analyze" = true) :
    (updatePackageJson pkg).2 = true := by
  unfold updatePackageJson
  dsimp only
  rw [if_pos h]

theorem upj_flag_neg (pkg : Pkg) (h : absentish pkg.scripts "analyze" = false) :
    (updatePackageJson pkg).2 =
      (mergeDependencies SEO_DEPENDENCIES SEO_DEV_DEPENDENCIES
        pkg.dependencies pkg.devDependencies).2.2 := by
  unfold updatePackageJson
  dsimp only
  rw [if_neg (by rw [h]; simp)]

/-- Both mappings of a second merge with the same entry lists coincide with
those of the first merge: every entry still falsy in both output mappings is
already bound to its listed value, so no guarded write fires again. -/
theorem mergeDependencies_idem (required devRequired deps devDeps : List (String × String)) :
    (mergeDependencies required devRequired
        (mergeDependencies required devRequired deps devDeps).1
        (mergeDependencies required devRequired deps devDeps).2.1).1 =
      (mergeDependencies required devRequired deps devDeps).1 ∧
    (mergeDependencies required devRequired
        (mergeDependencies required devRequired deps devDeps).1
        (mergeDependencies required devRequired deps devDeps).2.1).2.1 =
      (mergeDependencies required devRequired deps devDeps).2.1 := by
  have H1 : ∀ k v, (k, v) ∈ required →
      absentish (mergeDependencies required devRequired deps devDeps).1 k = true →
      absentish (mergeDependencies required devRequired deps devDeps).2.1 k = true →
      lookupKey (mergeDependencies required devRequired deps devDeps).1 k = some v := by
    intro k v hm h1 h2
    have h2d : absentish devDeps k = true :=
      (aml_invariant (addMissingList devDeps (deps, false) required).1 devRequired
        devDeps (addMissingList devDeps (deps, false) required).2).1 k h2
    exact aml_filled devDeps required deps false k v hm h1 h2d
  have hfst0 : (addMissingList (mergeDependencies required devRequired deps devDeps).2.1
      ((mergeDependencies required devRequired deps devDeps).1, false) required).1 =
      (mergeDependencies required devRequired deps devDeps).1 :=
    aml_noop (mergeDependencies required devRequired deps devDeps).2.1 required
      (mergeDependencies required devRequired deps devDeps).1 false H1
  have H2 : ∀ k v, (k, v) ∈ devRequired →
      absentish (mergeDependencies required devRequired deps devDeps).2.1 k = true →
      absentish (addMissingList (mergeDependencies required devRequired deps devDeps).2.1
        ((mergeDependencies required devRequired deps devDeps).1, false) required).1 k
        = true →
      lookupKey (mergeDependencies required devRequired deps devDeps).2.1 k = some v := by
    intro k v hm h1 h2
    rw [hfst0] at h2
    exact aml_filled (addMissingList devDeps (deps, false) required).1 devRequired
      devDeps (addMissingList devDeps (deps, false) required).2 k v hm h1 h2
  have hsnd0 : (addMissingList
      (addMissingList (mergeDependencies required devRequired deps devDeps).2.1
        ((mergeDependencies required devRequired deps devDeps).1, false) required).1
      ((mergeDependencies required devRequired deps devDeps).2.1,
        (addMissingList (mergeDependencies required devRequired deps devDeps).2.1
          ((mergeDependencies required devRequired deps devDeps).1, false) required).2)
      devRequired).1 =
      (mergeDependencies required devRequired deps devDeps).2.1 :=
    aml_noop (addMissingList (mergeDependencies required devRequired deps devDeps).2.1
        ((mergeDependencies required devRequired deps devDeps).1, false) required).1
      devRequired (mergeDependencies required devRequired deps devDeps).2.1
      (addMissingList (mergeDependencies required devRequired deps devDeps).2.1
        ((mergeDependencies required devRequired deps devDeps).1, false) required).2 H2
  exact ⟨hfst0, hsnd0⟩

/-- A second run of updatePackageJson on its own output leaves the manifest
record untouched: the merge loops are idempotent and the analyze script,
once stored with its non-empty command, blocks the script branch. -/
theorem updatePackageJson_idem (pkg : Pkg) :
    (updatePackageJson (updatePackageJson pkg).1).1 = (updatePackageJson pkg).1 := by
  obtain ⟨h1, h2⟩ := mergeDependencies_idem SEO_DEPENDENCIES SEO_DEV_DEPENDENCIES
    pkg.dependencies pkg.devDependencies
  have hd : (updatePackageJson (updatePackageJson pkg).1).1.dependencies =
      (updatePackageJson pkg).1.dependencies := by
    rw [upj_dependencies ((updatePackageJson pkg).1), upj_dependencies pkg,
      upj_devDependencies pkg]
    exact h1
  have hdd : (updatePackageJson (updatePackageJson pkg).1).1.devDependencies =
      (updatePackageJson pkg).1.devDependencies := by
    rw [upj_devDependencies ((updatePackageJson pkg).1), upj_dependencies pkg,
      upj_devDependencies pkg]
    exact h2
  have hs : (updatePackageJson (updatePackageJson pkg).1).1.scripts =
      (updatePackageJson pkg).1.scripts := by
    by_cases hc : absentish pkg.scripts "analyze" = true
    · have hps : (updatePackageJson pkg).1.scripts =
          setKey pkg.scripts "analyze" "npx vite-bundle-visualizer" :=
        upj_scripts_pos pkg hc
      have hana : absentish (updatePackageJson pkg).1.scripts "analyze" = false := by
        rw [hps]
        exact (absentish_false_iff _ _).mpr
          ⟨"npx vite-bundle-visualizer", lookupKey_setKey_self _ _ _, by decide⟩
      exact upj_scripts_neg _ hana
    · have hcf : absentish pkg.scripts "analyze" = false := bool_eq_false hc
      have hps : (updatePackageJson pkg).1.scripts = pkg.scripts := upj_scripts_neg pkg hcf
      have hana : absentish (updatePackageJson pkg).1.scripts "analyze" = false := by
        rw [hps]
        exact hcf
      exact upj_scripts_neg _ hana
  have ht : (updatePackageJson (updatePackageJson pkg).1).1.type =
      (updatePackageJson pkg).1.type := upj_type _
  exact Pkg.ext hd hdd hs ht

/-- A second run of the wiring mutation block on its own output fires no
guard: it returns the manifest unchanged with an unraised flag. -/
theorem wiringUpdatePkg_idem (pkg : Pkg) :
    wiringUpdatePkg (wiringUpdatePkg pkg).1 = ((wiringUpdatePkg pkg).1, false) := by
  obtain ⟨hA, hB, hC, hD, hE, hF⟩ := wiring_second_guards pkg
  have i1 : wStage1 ((wiringUpdatePkg pkg).1, false) = ((wiringUpdatePkg pkg).1, false) :=
    wStage1_id hA
  have i2 : wStage2 ((wiringUpdatePkg pkg).1, false) = ((wiringUpdatePkg pkg).1, false) :=
    wStage2_id hB
  have i3 : wStage3 ((wiringUpdatePkg pkg).1, false) = ((wiringUpdatePkg pkg).1, false) :=
    wStage3_id hC
  have i4 : wStage4 ((wiringUpdatePkg pkg).1, false) = ((wiringUpdatePkg pkg).1, false) :=
    wStage4_id hD
  have i5 : wStage5 ((wiringUpdatePkg pkg).1, false) = ((wiringUpdatePkg pkg).1, false) :=
    wStage5_id hE
  have i6 : wStage6 ((wiringUpdatePkg pkg).1, false) = ((wiringUpdatePkg pkg).1, false) :=
    wStage6_id hF
  show wStage6 (wStage5 (wStage4 (wStage3 (wStage2 (wStage1
    ((wiringUpdatePkg pkg).1, false)))))) = ((wiringUpdatePkg pkg).1, false)
  rw [i1, i2, i3, i4, i5, i6]

/-- C5: the dependency merge is idempotent.  A second application of
mergeDependencies to its own output mappings with the same required and
devRequired entry lists returns both mappings unchanged; a second
updatePackageJson run returns the same manifest record; and a second run of
the wiring mutation block returns the same manifest record with no mutation
reported. -/
theorem claimC5_merge_idempotent :
    (∀ required devRequired deps devDeps : List (String × String),
      (mergeDependencies required devRequired
          (mergeDependencies required devRequired deps devDeps).1
          (mergeDependencies required devRequired deps devDeps).2.1).1 =
        (mergeDependencies required devRequired deps devDeps).1 ∧
      (mergeDependencies required devRequired
          (mergeDependencies required devRequired deps devDeps).1
          (mergeDependencies required devRequired deps devDeps).2.1).2.1 =
        (mergeDependencies required devRequired deps devDeps).2.1) ∧
    (∀ pkg : Pkg,
      (updatePackageJson (updatePackageJson pkg).1).1 = (updatePackageJson pkg).1) ∧
    (∀ pkg : Pkg,
      wiringUpdatePkg (wiringUpdatePkg pkg).1 = ((wiringUpdatePkg pkg).1, false)) :=
  ⟨mergeDependencies_idem, updatePackageJson_idem, wiringUpdatePkg_idem⟩

/-- C6: the manifest is written back exactly when the in-memory manifest
changed.  For both updatePackageJson and the wiring mutation block, the
updated flag deciding the package.json write-back is raised if and only if
the resulting manifest record differs from the input record. -/
theorem claimC6_writeback_iff_mutated (pkg : Pkg) :
    ((updatePackageJson pkg).2 = true ↔ ¬ (updatePackageJson pkg).1 = pkg) ∧
    ((wiringUpdatePkg pkg).2 = true ↔ ¬ (wiringUpdatePkg pkg).1 = pkg) := by
  constructor
  · constructor
    · intro hflag he
      by_cases hc : absentish pkg.scripts "analyze" = true
      · have hps : (updatePackageJson pkg).1.scripts =
            setKey pkg.scripts "analyze" "npx vite-bundle-visualizer" :=
          upj_scripts_pos pkg hc
        have hl : lookupKey (updatePackageJson pkg).1.scripts "analyze" =
            some "npx vite-bundle-visualizer" := by
          rw [hps]
          exact lookupKey_setKey_self _ _ _
        rw [he] at hl
        have hcf : absentish pkg.scripts "analyze" = false :=
          (absentish_false_iff _ _).mpr ⟨"npx vite-bundle-visualizer", hl, by decide⟩
        rw [hcf] at hc
        exact absurd hc (by simp)
      · have hcf : absentish pkg.scripts "analyze" = false := bool_eq_false hc
        have hflagm : (mergeDependencies SEO_DEPENDENCIES SEO_DEV_DEPENDENCIES
            pkg.dependencies pkg.devDependencies).2.2 = true := by
          rw [← upj_flag_neg pkg hcf]
          exact hflag
        have hbr2 : (mergeDependencies SEO_DEPENDENCIES SEO_DEV_DEPENDENCIES
            pkg.dependencies pkg.devDependencies).2.2 =
            (addMissingList (addMissingList pkg.devDependencies
                (pkg.dependencies, false) SEO_DEPENDENCIES).1
              (pkg.devDependencies, (addMissingList pkg.devDependencies
                (pkg.dependencies, false) SEO_DEPENDENCIES).2)
              SEO_DEV_DEPENDENCIES).2 := rfl
        rw [hbr2] at hflagm
        by_cases hF1 : (addMissingList pkg.devDependencies (pkg.dependencies, false)
            SEO_DEPENDENCIES).2 = true
        · obtain ⟨k, hk⟩ := aml_changed pkg.devDependencies SEO_DEPENDENCIES
            pkg.dependencies (by decide) hF1
          have hde : (updatePackageJson pkg).1.dependencies = pkg.dependencies := by
            rw [he]
          rw [upj_dependencies] at hde
          have hbr1 : (mergeDependencies SEO_DEPENDENCIES SEO_DEV_DEPENDENCIES
              pkg.dependencies pkg.devDependencies).1 =
              (addMissingList pkg.devDependencies (pkg.dependencies, false)
                SEO_DEPENDENCIES).1 := rfl
          rw [hbr1] at hde
          exact hk (by rw [hde])
        · have hF1f : (addMissingList pkg.devDependencies (pkg.dependencies, false)
              SEO_DEPENDENCIES).2 = false := bool_eq_false hF1
          rw [hF1f] at hflagm
          obtain ⟨k, hk⟩ := aml_changed (addMissingList pkg.devDependencies
              (pkg.dependencies, false) SEO_DEPENDENCIES).1 SEO_DEV_DEPENDENCIES
            pkg.devDependencies (by decide) hflagm
          have hdde : (updatePackageJson pkg).1.devDependencies = pkg.devDependencies := by
            rw [he]
          rw [upj_devDependencies] at hdde
          have hbr3 : (mergeDependencies SEO_DEPENDENCIES SEO_DEV_DEPENDENCIES
              pkg.dependencies pkg.devDependencies).2.1 =
              (addMissingList (addMissingList pkg.devDependencies
                  (pkg.dependencies, false) SEO_DEPENDENCIES).1
                (pkg.devDependencies, (addMissingList pkg.devDependencies
                  (pkg.dependencies, false) SEO_DEPENDENCIES).2)
                SEO_DEV_DEPENDENCIES).1 := rfl
          rw [hbr3, hF1f] at hdde
          exact hk (by rw [hdde])
    · intro hne
      by_cases hfl : (updatePackageJson pkg).2 = true
      · exact hfl
      · exfalso
        apply hne
        have hflf : (updatePackageJson pkg).2 = false := bool_eq_false hfl
        have hcf : absentish pkg.scripts "analyze" = false := by
          by_cases hc0 : absentish pkg.scripts "analyze" = true
          · rw [upj_flag_pos pkg hc0] at hflf
            exact absurd hflf (by simp)
          · exact bool_eq_false hc0
        have hmf0 : (mergeDependencies SEO_DEPENDENCIES SEO_DEV_DEPENDENCIES
            pkg.dependencies pkg.devDependencies).2.2 = false := by
          rw [← upj_flag_neg pkg hcf]
          exact hflf
        have hmf : (addMissingList (addMissingList pkg.devDependencies
            (pkg.dependencies, false) SEO_DEPENDENCIES).1
          (pkg.devDependencies, (addMissingList pkg.devDependencies
            (pkg.dependencies, false) SEO_DEPENDENCIES).2)
          SEO_DEV_DEPENDENCIES).2 = false := hmf0
        obtain ⟨hF1, hddid⟩ := aml_flag_false (addMissingList pkg.devDependencies
            (pkg.dependencies, false) SEO_DEPENDENCIES).1 SEO_DEV_DEPENDENCIES
          pkg.devDependencies (addMissingList pkg.devDependencies
            (pkg.dependencies, false) SEO_DEPENDENCIES).2 hmf
        obtain ⟨_, hdid⟩ := aml_flag_false pkg.devDependencies SEO_DEPENDENCIES
          pkg.dependencies false hF1
        have hdf : (updatePackageJson pkg).1.dependencies = pkg.dependencies := by
          rw [upj_dependencies]
          exact hdid
        have hddf : (updatePackageJson pkg).1.devDependencies = pkg.devDependencies := by
          rw [upj_devDependencies]
          exact hddid
        have hsfe : (updatePackageJson pkg).1.scripts = pkg.scripts :=
          upj_scripts_neg pkg hcf
        have htfe : (updatePackageJson pkg).1.type = pkg.type := upj_type pkg
        exact Pkg.ext hdf hddf hsfe htfe
  · constructor
    · intro hflag he
      obtain ⟨hA, hB, hC, hD, hE, hF⟩ := wiring_second_guards pkg
      rw [he] at hA hB hC hD hE hF
      have i1 : wStage1 (pkg, false) = (pkg, false) := wStage1_id hA
      have i2 : wStage2 (pkg, false) = (pkg, false) := wStage2_id hB
      have i3 : wStage3 (pkg, false) = (pkg, false) := wStage3_id hC
      have i4 : wStage4 (pkg, false) = (pkg, false) := wStage4_id hD
      have i5 : wStage5 (pkg, false) = (pkg, false) := wStage5_id hE
      have i6 : wStage6 (pkg, false) = (pkg, false) := wStage6_id hF
      have hwp : wiringUpdatePkg pkg = (pkg, false) := by
        show wStage6 (wStage5 (wStage4 (wStage3 (wStage2 (wStage1 (pkg, false)))))) =
          (pkg, false)
        rw [i1, i2, i3, i4, i5, i6]
      rw [hwp] at hflag
      exact absurd hflag (by simp)
    · intro hne
      by_cases hfl : (wiringUpdatePkg pkg).2 = true
      · exact hfl
      · exfalso
        apply hne
        have hflf : (wStage6 (wStage5 (wStage4 (wStage3 (wStage2
            (wStage1 (pkg, false))))))).2 = false := bool_eq_false hfl
        obtain ⟨e6, f5⟩ := wStage6_flag_false hflf
        obtain ⟨e5, f4⟩ := wStage5_flag_false f5
        obtain ⟨e4, f3⟩ := wStage4_flag_false f4
        obtain ⟨e3, f2⟩ := wStage3_flag_false f3
        obtain ⟨e2, f1⟩ := wStage2_flag_false f2
        obtain ⟨e1, _⟩ := wStage1_flag_false f1
        show (wStage6 (wStage5 (wStage4 (wStage3 (wStage2 (wStage1 (pkg, false))))))).1 = pkg
        rw [e6, e5, e4, e3, e2, e1]

/-! ## The C4 counterexample and the amended merge invariants -/

/-- A manifest that declares react-helmet-async and vite-bundle-visualizer
in dependencies with empty version strings, which the JS truthiness guard
of the merge treats as missing. -/
def pkgC4 : Pkg :=
  { dependencies := [("react-helmet-async", ""), ("vite-bundle-visualizer", "")],
    devDependencies := [],
    scripts := [("analyze", "a")],
    type := none }

/-- C4 counterexample to the literal claim: updatePackageJson overwrites
the user-declared (empty) react-helmet-async version with a caret range
and, because vite-bundle-visualizer is declared in dependencies with an
empty value, it adds vite-bundle-visualizer to devDependencies as well,
making that name present in both mappings although it was present only in
dependencies before. -/
theorem claimC4_counterexample :
    lookupKey pkgC4.dependencies "react-helmet-async" = some "" ∧
    lookupKey (updatePackageJson pkgC4).1.dependencies "react-helmet-async" =
      some "^2.0.0" ∧
    (lookupKey pkgC4.dependencies "vite-bundle-visualizer").isSome = true ∧
    (lookupKey pkgC4.devDependencies "vite-bundle-visualizer").isSome = false ∧
    (lookupKey (updatePackageJson pkgC4).1.dependencies "vite-bundle-visualizer").isSome
      = true ∧
    (lookupKey (updatePackageJson pkgC4).1.devDependencies "vite-bundle-visualizer").isSome
      = true := by
  decide

/-- C4 (amended to the JS-truthiness reading of presence the code applies):
for all entry lists and manifests, (i) a non-empty user-declared
dependencies version survives the merge verbatim, (ii) a non-empty
user-declared devDependencies version survives verbatim, (iii) a changed
dependencies binding had a falsy (absent or empty) value in both mappings
beforehand, (iv) a changed devDependencies binding was falsy in
devDependencies and in the merged dependencies, and (v) a key falsy in both
mappings beforehand is still falsy in at least one mapping afterwards: the
merge never gives a name a non-empty version in both mappings
simultaneously when it had none before. -/
theorem claimC4_merge_additive
    (required devRequired deps devDeps : List (String × String)) :
    (∀ k v, lookupKey deps k = some v → ¬ v = "" →
      lookupKey (mergeDependencies required devRequired deps devDeps).1 k = some v) ∧
    (∀ k v, lookupKey devDeps k = some v → ¬ v = "" →
      lookupKey (mergeDependencies required devRequired deps devDeps).2.1 k = some v) ∧
    (∀ k, ¬ lookupKey (mergeDependencies required devRequired deps devDeps).1 k =
        lookupKey deps k →
      absentish deps k = true ∧ absentish devDeps k = true) ∧
    (∀ k, ¬ lookupKey (mergeDependencies required devRequired deps devDeps).2.1 k =
        lookupKey devDeps k →
      absentish devDeps k = true ∧
        absentish (mergeDependencies required devRequired deps devDeps).1 k = true) ∧
    (∀ k, absentish deps k = true → absentish devDeps k = true →
      absentish (mergeDependencies required devRequired deps devDeps).1 k = true ∨
        absentish (mergeDependencies required devRequired deps devDeps).2.1 k = true) := by
  refine ⟨?_, ?_, ?_, ?_, ?_⟩
  · intro k v hv hne
    exact (aml_invariant devDeps required deps false).2.1 k v hv hne
  · intro k v hv hne
    exact (aml_invariant (addMissingList devDeps (deps, false) required).1 devRequired
      devDeps (addMissingList devDeps (deps, false) required).2).2.1 k v hv hne
  · intro k hk
    exact (aml_invariant devDeps required deps false).2.2.2.1 k hk
  · intro k hk
    exact (aml_invariant (addMissingList devDeps (deps, false) required).1 devRequired
      devDeps (addMissingList devDeps (deps, false) required).2).2.2.2.1 k hk
  · intro k _ hdd0
    by_cases h1 : absentish (mergeDependencies required devRequired deps devDeps).1 k = true
    · exact Or.inl h1
    · right
      by_cases hchg : lookupKey (addMissingList (addMissingList devDeps (deps, false)
          required).1 (devDeps, (addMissingList devDeps (deps, false) required).2)
          devRequired).1 k = lookupKey devDeps k
      · have habs : absentish (addMissingList (addMissingList devDeps (deps, false)
            required).1 (devDeps, (addMissingList devDeps (deps, false) required).2)
            devRequired).1 k = absentish devDeps k := by
          unfold absentish
          rw [hchg]
        exact habs.trans hdd0
      · obtain ⟨hddk, hd1k⟩ := (aml_invariant (addMissingList devDeps (deps, false)
            required).1 devRequired devDeps
            (addMissingList devDeps (deps, false) required).2).2.2.2.1 k hchg
        exact absurd hd1k h1

/-- C4 witness: the amended theorem applied at the SEO entry lists to a
manifest that already pins react non-empty: the pin survives the merge. -/
theorem claimC4_witness :
    lookupKey (mergeDependencies SEO_DEPENDENCIES SEO_DEV_DEPENDENCIES
      [("react", "^18.0.0")] []).1 "react" = some "^18.0.0" :=
  (claimC4_merge_additive SEO_DEPENDENCIES SEO_DEV_DEPENDENCIES
    [("react", "^18.0.0")] []).1 "react" "^18.0.0" (by decide) (by decide)
